import Mathlib

/-!
Shallow embedding of `synctool/object.py`: the reconciliation core of the
synctool fleet configuration-synchronization tool.

The filesystem is modelled as an association list from paths (lists of
name components) to entries (typed data plus owner/mode metadata).
Mutating syscalls are modelled as `Except`-returning primitives over that
state; a spurious-failure oracle stands for the operating system errors
(EPERM and friends) that the Python code catches, while intrinsic failure
conditions (removing a missing entry, rmdir of a non-empty directory, ...)
are derived from the state itself.  Console output channels are modelled
as event lists where a claim depends on them.  The MD5 digest is modelled
as an abstract function `H` on byte lists; claims about checksum
comparison hold for every collision-free (injective) `H`.
-/

namespace Synctool

/-- A filesystem path, as its list of name components. -/
abbrev Path := List String

/-- `pathLE p q` holds when `p` is an initial segment of `q`
(so `q` lies in the subtree rooted at `p`). -/
def pathLE : Path → Path → Bool
  | [], _ => true
  | _ :: _, [] => false
  | a :: p, b :: q => if a = b then pathLE p q else false

/-- File type as recorded by a stat snapshot. -/
inductive FType
  | file | dir | link | fifo | chardev | blkdev | unknown
deriving DecidableEq

/-- Owner, group and permission-bit metadata of a filesystem entry. -/
structure Meta where
  uid : Nat
  gid : Nat
  mode : Nat
deriving DecidableEq

/-- The typed payload of a filesystem entry. -/
inductive EntryData
  | file (content : List Nat)
  | dir
  | symlink (target : String)
  | fifo
  | chardev (rdev_major rdev_minor : Nat)
  | blkdev (rdev_major rdev_minor : Nat)
deriving DecidableEq

def EntryData.isDir : EntryData → Bool
  | .dir => true
  | _ => false

/-- The file type of an entry's payload. -/
def EntryData.ftype : EntryData → FType
  | .file _ => .file
  | .dir => .dir
  | .symlink _ => .link
  | .fifo => .fifo
  | .chardev _ _ => .chardev
  | .blkdev _ _ => .blkdev

/-- The st_size a stat call reports for an entry (0 for non-files;
only file sizes are ever consulted by the code under study). -/
def EntryData.size : EntryData → Nat
  | .file c => c.length
  | _ => 0

/-- A destination filesystem entry: payload plus metadata. -/
structure DEntry where
  data : EntryData
  meta : Meta
deriving DecidableEq

/-- The filesystem state: an association list from paths to entries. -/
abbrev World := List (Path × DEntry)

def World.find : World → Path → Option DEntry
  | [], _ => none
  | (q, e) :: w, p => if q = p then some e else World.find w p

def World.erase : World → Path → World
  | [], _ => []
  | (q, e) :: w, p => if q = p then World.erase w p else (q, e) :: World.erase w p

def World.set (w : World) (p : Path) (e : DEntry) : World :=
  (p, e) :: w.erase p

/-- Replace the entry at `p` (when present) by `f` of it. -/
def World.adjust (w : World) (p : Path) (f : DEntry → DEntry) : World :=
  match w.find p with
  | none => w
  | some e => w.set p (f e)

/-- Whether some entry lies strictly below `p` (so `p` names a non-empty
directory in the POSIX sense). -/
def World.hasChild (w : World) (p : Path) : Bool :=
  w.any (fun qe => decide (qe.1 ≠ p) && pathLE p qe.1)

/-- `os.rename` moves the whole subtree rooted at `src` to `dst`,
dropping whatever subtree previously sat at `dst`. -/
def renameKey (src dst q : Path) : Option Path :=
  if pathLE src q then some (dst ++ q.drop src.length)
  else if pathLE dst q then none
  else some q

def World.renameTree (w : World) (src dst : Path) : World :=
  w.filterMap (fun qe => (renameKey src dst qe.1).map (fun r => (r, qe.2)))

/-- The `<name>.saved` sibling path: same path with `.saved` appended to
the final component (Python: `'%s.saved' % self.name`). -/
def savedPath : Path → Path
  | [] => []
  | [a] => [a ++ ".saved"]
  | a :: b :: p => a :: savedPath (b :: p)

/-- All non-empty initial segments of a path. -/
def prefixesOf : Path → List Path
  | [] => []
  | a :: p => [a] :: (prefixesOf p).map (a :: ·)

/-- The chain of ancestor directories of `p` (the initial segments of
`os.path.dirname p`), which `mkdir -p` of the dirname would create. -/
def parentPaths (p : Path) : List Path :=
  prefixesOf p.dropLast

/-- Descriptors of the mutating syscalls, used to key the
spurious-failure oracle. -/
inductive Sys
  | rename (src dst : Path)
  | unlink (p : Path)
  | rmdir (p : Path)
  | mkdir (p : Path)
  | chown (p : Path)
  | chmod (p : Path)
  | symlinkNew (p : Path)
  | copy (src dst : Path)
  | mkfifo (p : Path)
  | mknod (p : Path)
  | utime (p : Path)

/-- The error oracle: which syscalls fail spuriously (on top of the
intrinsic failure conditions derived from the state). -/
structure Oracle where
  sysFail : Sys → Bool
  openFail : Path → Bool
  readFail : Path → Nat → Bool
  statFail : Path → Bool
  readlinkFail : Path → Bool

/-- The oracle under which no spurious failure occurs. -/
def noFail : Oracle :=
  ⟨fun _ => false, fun _ => false, fun _ _ => false, fun _ => false, fun _ => false⟩

/-- The process-wide run configuration (synctool.lib.DRY_RUN,
synctool.param.BACKUP_COPIES, verbosity flags, platform capabilities). -/
structure Config where
  dryRun : Bool
  backupCopies : Bool
  verboseMode : Bool
  unixCmd : Bool
  hasLchown : Bool
  hasLchmod : Bool

/-- Modelled from the spec: `synctool.lib.dryrun_msg` is not under
`src/`; per the spec, dry-run mode produces the same message lines,
marked so the user can see nothing was changed. -/
def dryrun_msg (cfg : Config) (s : String) : String :=
  if cfg.dryRun then s ++ " (dry run)" else s

def pathStr (p : Path) : String := String.intercalate "/" p

/- Syscall primitives.  `.error` is the OSError/IOError the Python code
catches at each call site. -/

def os_rename (orc : Oracle) (w : World) (src dst : Path) : Except Unit World :=
  if orc.sysFail (.rename src dst) then .error ()
  else match w.find src with
    | none => .error ()
    | some _ =>
      match w.find dst with
      | some e => if e.data.isDir then .error () else .ok (w.renameTree src dst)
      | none => .ok (w.renameTree src dst)

def os_unlink (orc : Oracle) (w : World) (p : Path) : Except Unit World :=
  if orc.sysFail (.unlink p) then .error ()
  else match w.find p with
    | none => .error ()
    | some e => if e.data.isDir then .error () else .ok (w.erase p)

def os_rmdir (orc : Oracle) (w : World) (p : Path) : Except Unit World :=
  if orc.sysFail (.rmdir p) then .error ()
  else match w.find p with
    | none => .error ()
    | some e =>
      if e.data.isDir = false then .error ()
      else if w.hasChild p then .error ()
      else .ok (w.erase p)

def os_mkdir (orc : Oracle) (w : World) (p : Path) (mode : Nat) : Except Unit World :=
  if orc.sysFail (.mkdir p) then .error ()
  else if (w.find p).isSome then .error ()
  else .ok (w.set p ⟨.dir, ⟨0, 0, mode⟩⟩)

def os_chown (orc : Oracle) (w : World) (p : Path) (u g : Nat) : Except Unit World :=
  if orc.sysFail (.chown p) then .error ()
  else match w.find p with
    | none => .error ()
    | some e => .ok (w.set p ⟨e.data, ⟨u, g, e.meta.mode⟩⟩)

def os_chmod (orc : Oracle) (w : World) (p : Path) (m : Nat) : Except Unit World :=
  if orc.sysFail (.chmod p) then .error ()
  else match w.find p with
    | none => .error ()
    | some e => .ok (w.set p ⟨e.data, ⟨e.meta.uid, e.meta.gid, m⟩⟩)

def os_symlink (orc : Oracle) (w : World) (target : String) (p : Path) : Except Unit World :=
  if orc.sysFail (.symlinkNew p) then .error ()
  else if (w.find p).isSome then .error ()
  else .ok (w.set p ⟨.symlink target, ⟨0, 0, 0o777⟩⟩)

def os_mkfifo (orc : Oracle) (w : World) (p : Path) (m : Nat) : Except Unit World :=
  if orc.sysFail (.mkfifo p) then .error ()
  else if (w.find p).isSome then .error ()
  else .ok (w.set p ⟨.fifo, ⟨0, 0, m⟩⟩)

def os_mknod (orc : Oracle) (w : World) (p : Path) (d : EntryData) (m : Nat) : Except Unit World :=
  if orc.sysFail (.mknod p) then .error ()
  else if (w.find p).isSome then .error ()
  else .ok (w.set p ⟨d, ⟨0, 0, m⟩⟩)

def os_utime (orc : Oracle) (w : World) (p : Path) : Except Unit World :=
  if orc.sysFail (.utime p) then .error ()
  else match w.find p with
    | none => .error ()
    | some _ => .ok w

/-- Where `shutil.copy src dst` writes: at `dst`, unless `dst` is an
existing directory, in which case the copy lands at `dst/basename src`. -/
def copyTarget (w : World) (src dst : Path) : Path :=
  match w.find dst with
  | some e => if e.data.isDir then dst ++ [src.getLastD ""] else dst
  | none => dst

/-- The metadata a copy leaves at its target: permission bits are copied
from the source, ownership of an existing target is preserved. -/
def copyMeta (w : World) (tgt : Path) (srcMode : Nat) : Meta :=
  match w.find tgt with
  | some e2 => Meta.mk e2.meta.uid e2.meta.gid srcMode
  | none => Meta.mk 0 0 srcMode

/-- `shutil.copy src dst`: copy content and permission bits (not owner). -/
def shutil_copy (orc : Oracle) (w : World) (src dst : Path) : Except Unit World :=
  if orc.sysFail (.copy src dst) then .error ()
  else match w.find src with
    | some se =>
      match se.data with
      | .file c =>
        .ok (w.set (copyTarget w src dst)
          ⟨.file c, copyMeta w (copyTarget w src dst) se.meta.mode⟩)
      | _ => .error ()
    | none => .error ()

def os_readlink (orc : Oracle) (w : World) (p : Path) : Except Unit String :=
  if orc.readlinkFail p then .error ()
  else match w.find p with
    | some e =>
      match e.data with
      | .symlink t => .ok t
      | _ => .error ()
    | none => .error ()

/-- A raw `os.stat`/`os.lstat` result (the fields the code consults). -/
structure RawStat where
  st_mode : Nat
  st_rdev_major : Nat
  st_rdev_minor : Nat
deriving DecidableEq

/-- Number of permission+special bits: masks below this are `& 07777`. -/
def typeBits : FType → Nat
  | .file => 0o100000
  | .dir => 0o040000
  | .link => 0o120000
  | .fifo => 0o010000
  | .chardev => 0o020000
  | .blkdev => 0o060000
  | .unknown => 0

def EntryData.rdevMajor : EntryData → Nat
  | .chardev a _ => a
  | .blkdev a _ => a
  | _ => 0

def EntryData.rdevMinor : EntryData → Nat
  | .chardev _ b => b
  | .blkdev _ b => b
  | _ => 0

def rawStatOf (e : DEntry) : RawStat :=
  ⟨typeBits e.data.ftype + (e.meta.mode &&& 0o7777), e.data.rdevMajor, e.data.rdevMinor⟩

def os_lstat (orc : Oracle) (w : World) (p : Path) : Except Unit RawStat :=
  if orc.statFail p then .error ()
  else match w.find p with
    | some e => .ok (rawStatOf e)
    | none => .error ()

/-- `os.stat` (the model carries no symlink indirection, so it agrees
with `os.lstat`). -/
def os_stat (orc : Oracle) (w : World) (p : Path) : Except Unit RawStat :=
  os_lstat orc w p

/-- Modelled from the spec: `synctool.syncstat.SyncStat` (the external
MetadataSnapshot of §3/§6) is not under `src/`; it is an immutable view
of one path's existence, file type, mode, uid and gid (plus the cached
size the file comparison consults), never re-queried after construction. -/
structure SyncStat where
  fsExists : Bool
  ftype : FType
  mode : Nat
  uid : Nat
  gid : Nat
  size : Nat
deriving DecidableEq

def SyncStat.is_file (s : SyncStat) : Bool := s.ftype = FType.file
def SyncStat.is_dir (s : SyncStat) : Bool := s.ftype = FType.dir
def SyncStat.is_link (s : SyncStat) : Bool := s.ftype = FType.link
def SyncStat.is_fifo (s : SyncStat) : Bool := s.ftype = FType.fifo
def SyncStat.is_chardev (s : SyncStat) : Bool := s.ftype = FType.chardev
def SyncStat.is_blockdev (s : SyncStat) : Bool := s.ftype = FType.blkdev

/-- The snapshot a fresh stat of path `p` in world `w` would produce
(the §6 interface instantiated on the model state). -/
def statOf (w : World) (p : Path) : SyncStat :=
  match w.find p with
  | none => ⟨false, .unknown, 0, 0, 0, 0⟩
  | some e =>
    ⟨true, e.data.ftype, typeBits e.data.ftype + (e.meta.mode &&& 0o7777),
     e.meta.uid, e.meta.gid, e.data.size⟩

/-- The variant-specific state of a VNode (the subclass in the Python
code): regular files carry the source content path, symlinks the
recorded target, device nodes the raw source stat. -/
inductive VKind
  | file (src_path : Path)
  | dir
  | link (oldpath : String)
  | fifo
  | chardev (src_stat : RawStat)
  | blkdev (src_stat : RawStat)
deriving DecidableEq

/-- The VNode handler: destination path, source stat snapshot, whether
the destination existed at check time, and the variant data. -/
structure VNode where
  name : Path
  stat : SyncStat
  fsExists : Bool
  kind : VKind
deriving DecidableEq

/-- Terse one-line event categories (synctool.lib TERSE_* constants). -/
inductive TerseTag
  | newT | delete | mkdirT | sync | owner | modeT | linkT | warning | fail | info
deriving DecidableEq

/-- Console/side-channel output events, modelled where a claim depends
on them (deletion paths). -/
inductive OutEvent
  | stdoutLine (s : String)
  | stderrLine (s : String)
  | verboseLine (s : String)
  | unixOut (s : String)
  | terseEv (tag : TerseTag) (s : String)
  | logLine (s : String)
deriving DecidableEq

/-- File I/O events of the checksum comparison (used to state that the
size short-circuit opens and reads no file). -/
inductive IOEv
  | openF (p : Path)
  | readF (p : Path) (idx : Nat)
deriving DecidableEq

/-- size for doing I/O while checksumming files (`IO_SIZE = 16 * 1024`). -/
def IO_SIZE : Nat := 16 * 1024

/-- `VNode.move_saved`: move the existing entry aside to `<name>.saved`,
reporting (not raising) a rename failure. -/
def VNode.move_saved (cfg : Config) (orc : Oracle) (v : VNode) (w : World) :
    World × List OutEvent :=
  let n := pathStr v.name
  let ev0 := [OutEvent.verboseLine (dryrun_msg cfg ("saving " ++ n ++ " as " ++ n ++ ".saved")),
              OutEvent.unixOut ("mv " ++ n ++ " " ++ n ++ ".saved")]
  if cfg.dryRun then (w, ev0)
  else
    let ev1 := ev0 ++ [OutEvent.verboseLine ("  os.rename(" ++ n ++ ", " ++ n ++ ".saved)")]
    match os_rename orc w v.name (savedPath v.name) with
    | .ok w2 => (w2, ev1)
    | .error _ =>
      (w, ev1 ++ [OutEvent.stderrLine ("failed to save " ++ n ++ " as " ++ n ++ ".saved"),
                  OutEvent.terseEv TerseTag.fail ("save " ++ n ++ ".saved")])

/-- `VNode.harddelete` / `VNodeDir.harddelete`: always-logged deletion.
The directory variant only attempts the rmdir when not in dry-run and
backup copies are off, and downgrades a failed rmdir to `move_saved`. -/
def VNode.harddelete (cfg : Config) (orc : Oracle) (v : VNode) (w : World) :
    World × List OutEvent :=
  let n := pathStr v.name
  let not_str := if cfg.dryRun then "not " else ""
  match v.kind with
  | .dir =>
    let ev0 := [OutEvent.stdoutLine (not_str ++ "removing " ++ n ++ "/"),
                OutEvent.unixOut ("rmdir " ++ n),
                OutEvent.terseEv TerseTag.delete (n ++ "/")]
    if cfg.dryRun = false ∧ cfg.backupCopies = false then
      let ev1 := ev0 ++ [OutEvent.verboseLine ("  os.rmdir(" ++ n ++ ")")]
      match os_rmdir orc w v.name with
      | .ok w2 => (w2, ev1)
      | .error _ =>
        let r := VNode.move_saved cfg orc v w
        (r.1, ev1 ++ [OutEvent.verboseLine ("refusing to delete directory " ++ n)] ++ r.2)
    else (w, ev0)
  | _ =>
    let ev0 := [OutEvent.stdoutLine (not_str ++ "deleting " ++ n),
                OutEvent.unixOut ("rm " ++ n),
                OutEvent.terseEv TerseTag.delete n]
    if cfg.dryRun then (w, ev0)
    else
      let ev1 := ev0 ++ [OutEvent.verboseLine ("  os.unlink(" ++ n ++ ")")]
      match os_unlink orc w v.name with
      | .ok w2 => (w2, ev1 ++ [OutEvent.logLine ("deleted " ++ n)])
      | .error _ =>
        (w, ev1 ++ [OutEvent.stderrLine ("failed to delete " ++ n),
                    OutEvent.terseEv TerseTag.fail ("delete " ++ n)])

/-- `VNode.quiet_delete` / `VNodeDir.quiet_delete`: silent delete, only
called by `fix()`; errors are swallowed, except that the directory
variant downgrades a failed rmdir to `move_saved`. -/
def VNode.quiet_delete (cfg : Config) (orc : Oracle) (v : VNode) (w : World) : World :=
  match v.kind with
  | .dir =>
    if cfg.dryRun = false ∧ cfg.backupCopies = false then
      match os_rmdir orc w v.name with
      | .ok w2 => w2
      | .error _ => (VNode.move_saved cfg orc v w).1
    else w
  | _ =>
    if cfg.dryRun = false ∧ cfg.backupCopies = false then
      match os_unlink orc w v.name with
      | .ok w2 => w2
      | .error _ => w
    else w

/-- Modelled from the spec: `synctool.lib.mkdir_p` is not under `src/`;
per the spec it recursively creates the missing ancestor directories,
best-effort. -/
def mkdir_p (w : World) (dirs : List Path) : World :=
  dirs.foldl (fun w2 d => if (World.find w2 d).isSome then w2 else w2.set d ⟨.dir, ⟨0, 0, 0o755⟩⟩) w

/-- `VNode.mkdir_basepath`: create the leading path (no-op in dry-run). -/
def VNode.mkdir_basepath (cfg : Config) (v : VNode) (w : World) : World :=
  if cfg.dryRun then w
  else mkdir_p w (parentPaths v.name)

/-- `VNode.set_owner` / `VNodeLink.set_owner`: chown to the source
snapshot's uid/gid; the symlink variant requires `os.lchown` and
silently skips where unsupported; failures are reported, not raised. -/
def VNode.set_owner (cfg : Config) (orc : Oracle) (v : VNode) (w : World) : World :=
  match v.kind with
  | .link _ =>
    if cfg.hasLchown = false then w
    else if cfg.dryRun then w
    else match os_chown orc w v.name v.stat.uid v.stat.gid with
      | .ok w2 => w2
      | .error _ => w
  | _ =>
    if cfg.dryRun then w
    else match os_chown orc w v.name v.stat.uid v.stat.gid with
      | .ok w2 => w2
      | .error _ => w

/-- `VNode.set_permissions` / `VNodeLink.set_permissions`: chmod to the
source snapshot's permission bits (`mode & 07777`); the symlink variant
requires `os.lchmod` and silently skips where unsupported. -/
def VNode.set_permissions (cfg : Config) (orc : Oracle) (v : VNode) (w : World) : World :=
  match v.kind with
  | .link _ =>
    if cfg.hasLchmod = false then w
    else if cfg.dryRun then w
    else match os_chmod orc w v.name (v.stat.mode &&& 0o7777) with
      | .ok w2 => w2
      | .error _ => w
  | _ =>
    if cfg.dryRun then w
    else match os_chmod orc w v.name (v.stat.mode &&& 0o7777) with
      | .ok w2 => w2
      | .error _ => w

/-- `VNode.set_times`: set access and mod times (only used for purge
`--single`; the model records no timestamps, so a successful call leaves
the state unchanged). -/
def VNode.set_times (cfg : Config) (orc : Oracle) (v : VNode)
    (atime mtime : Nat) (w : World) : World :=
  if cfg.dryRun then w
  else match os_utime orc w v.name with
    | .ok w2 => w2
    | .error _ => w

/-- One iteration fuel-indexed unfolding of the checksum while-loop of
`VNodeFile._compare_checksums`:

    while not ended and sum1.digest() == sum2.digest():
        data1 = f1.read(IO_SIZE)   # IOError => return False
        ...
        data2 = f2.read(IO_SIZE)   # IOError => return False
        ...
    return sum1.digest() == sum2.digest()

`H` stands for the MD5 digest of the bytes accumulated so far; `rem1`,
`rem2` are the unread suffixes of each file; the trace records the reads
performed.  The fuel-0 value coincides with the loop-exit value, and
every caller passes fuel strictly above the number of iterations. -/
def checksumLoop (H : List Nat → List Nat) (orc : Oracle) (sp dp : Path) :
    Nat → Bool → List Nat → List Nat → List Nat → List Nat → Nat → Bool × List IOEv
  | 0, _, _, _, acc1, acc2, _ => (decide (H acc1 = H acc2), [])
  | _ + 1, true, _, _, acc1, acc2, _ => (decide (H acc1 = H acc2), [])
  | fuel + 1, false, rem1, rem2, acc1, acc2, idx =>
    if H acc1 ≠ H acc2 then (decide (H acc1 = H acc2), [])
    else if orc.readFail sp idx then (false, [IOEv.readF sp idx])
    else if orc.readFail dp idx then (false, [IOEv.readF sp idx, IOEv.readF dp idx])
    else
      let data1 := rem1.take IO_SIZE
      let data2 := rem2.take IO_SIZE
      let ended2 := data1.isEmpty || data2.isEmpty
      let r := checksumLoop H orc sp dp fuel ended2 (rem1.drop IO_SIZE) (rem2.drop IO_SIZE)
                 (acc1 ++ data1) (acc2 ++ data2) (idx + 1)
      (r.1, IOEv.readF sp idx :: IOEv.readF dp idx :: r.2)

/-- Loop invariant of the checksum comparison: the accumulated prefixes
have equal length, or the shorter side's stream is exhausted. -/
def alignedAcc (a1 a2 r1 r2 : List Nat) : Prop :=
  a1.length = a2.length ∨
  (a1.length < a2.length ∧ r1 = []) ∨
  (a2.length < a1.length ∧ r2 = [])

/-- Open a file for reading, yielding its content. -/
def openFile (orc : Oracle) (w : World) (p : Path) : Except Unit (List Nat) :=
  if orc.openFail p then .error ()
  else match w.find p with
    | some e =>
      match e.data with
      | .file c => .ok c
      | _ => .error ()
    | none => .error ()

/-- `VNodeFile._compare_checksums`: stream-compare `src_path` against
the destination `name`.  A source open error yields True ("we can't fix
an error in src_path"); a destination open error yields False; read
errors on either side yield False. -/
def compare_checksums (H : List Nat → List Nat) (orc : Oracle) (w : World)
    (src_path name : Path) : Bool × List IOEv :=
  match openFile orc w src_path with
  | .error _ => (true, [IOEv.openF src_path])
  | .ok c1 =>
    match openFile orc w name with
    | .error _ => (false, [IOEv.openF src_path, IOEv.openF name])
    | .ok c2 =>
      let r := checksumLoop H orc src_path name (c1.length + c2.length + 1)
                 false c1 c2 [] [] 0
      (r.1, IOEv.openF src_path :: IOEv.openF name :: r.2)

/-- `VNode.compare` with its per-variant overrides: base (dir, fifo)
always True; file compares cached sizes then checksums; symlink compares
the recorded target against a fresh readlink of the destination; device
nodes re-stat the destination and compare major/minor numbers. -/
def VNode.compare (H : List Nat → List Nat) (orc : Oracle) (v : VNode)
    (src_path : Path) (dest_stat : SyncStat) (w : World) : Bool × List IOEv :=
  match v.kind with
  | .file _ =>
    if v.stat.size ≠ dest_stat.size then (false, [])
    else compare_checksums H orc w src_path v.name
  | .link oldpath =>
    if v.fsExists = false then (false, [])
    else match os_readlink orc w v.name with
      | .error _ => (false, [])
      | .ok link_to => (decide (oldpath = link_to), [])
  | .chardev src_stat =>
    if v.fsExists = false then (false, [])
    else match os_lstat orc w v.name with
      | .error _ => (false, [])
      | .ok dst =>
        (decide (src_stat.st_rdev_major = dst.st_rdev_major ∧
                 src_stat.st_rdev_minor = dst.st_rdev_minor), [])
  | .blkdev src_stat =>
    if v.fsExists = false then (false, [])
    else match os_lstat orc w v.name with
      | .error _ => (false, [])
      | .ok dst =>
        (decide (src_stat.st_rdev_major = dst.st_rdev_major ∧
                 src_stat.st_rdev_minor = dst.st_rdev_minor), [])
  | _ => (true, [])

/-- `VNode.create` with its per-variant overrides; every creation
failure is caught and reported at this leaf. -/
def VNode.create (cfg : Config) (orc : Oracle) (v : VNode) (w : World) : World :=
  match v.kind with
  | .file sp =>
    if cfg.dryRun then w
    else match shutil_copy orc w sp v.name with
      | .ok w2 => w2
      | .error _ => w
  | .dir =>
    if (w.find v.name).isSome then w
    else if cfg.dryRun then w
    else match os_mkdir orc w v.name (v.stat.mode &&& 0o7777) with
      | .ok w2 => w2
      | .error _ => w
  | .link oldpath =>
    if cfg.dryRun then w
    else match os_symlink orc w oldpath v.name with
      | .ok w2 => w2
      | .error _ => w
  | .fifo =>
    if cfg.dryRun then w
    else match os_mkfifo orc w v.name (v.stat.mode &&& 0o777) with
      | .ok w2 => w2
      | .error _ => w
  | .chardev src_stat =>
    if cfg.dryRun then w
    else match os_mknod orc w v.name
        (.chardev src_stat.st_rdev_major src_stat.st_rdev_minor)
        (src_stat.st_mode &&& 0o777) with
      | .ok w2 => w2
      | .error _ => w
  | .blkdev src_stat =>
    if cfg.dryRun then w
    else match os_mknod orc w v.name
        (.blkdev src_stat.st_rdev_major src_stat.st_rdev_minor)
        (src_stat.st_mode &&& 0o777) with
      | .ok w2 => w2
      | .error _ => w

/-- `VNode.fix`: repair the existing entry — back up or silently delete
the old entry, ensure the leading path, create, then set owner and
permissions from the source snapshot. -/
def VNode.fix (cfg : Config) (orc : Oracle) (v : VNode) (w : World) : World :=
  let w1 :=
    if v.fsExists then
      if cfg.backupCopies then (VNode.move_saved cfg orc v w).1
      else VNode.quiet_delete cfg orc v w
    else w
  let w2 := VNode.mkdir_basepath cfg v w1
  let w3 := VNode.create cfg orc v w2
  let w4 := VNode.set_owner cfg orc v w3
  VNode.set_permissions cfg orc v w4

/-- Concrete sample configuration (dry-run on) for witness statements. -/
def wCfgDry : Config := ⟨true, true, false, false, true, true⟩

/-- Concrete sample stat snapshot for witness statements. -/
def wStatF : SyncStat := ⟨true, .file, 0o100644, 0, 0, 2⟩

/-- Concrete sample file handler for witness statements. -/
def wVF : VNode := ⟨["etc", "motd"], wStatF, true, .file ["overlay", "motd"]⟩

/-- Concrete sample world for witness statements. -/
def wW : World := [(["etc", "motd"], ⟨.file [104, 105], ⟨0, 0, 0o644⟩⟩)]

/-- An uncaught Python exception escaping the core. -/
inductive PyErr
  | attributeError
  | osError
deriving DecidableEq

/-- `SyncObject`: the source/destination pair with its cached stat
snapshots. -/
structure SyncObject where
  src_path : Path
  dest_path : Path
  ov_type : Nat
  src_stat : SyncStat
  dest_stat : SyncStat
deriving DecidableEq

/-- Concrete sample reconciler pair for witness statements. -/
def wSO : SyncObject := ⟨["overlay", "motd"], ["etc", "motd"], 0, wStatF, wStatF⟩

/-- Concrete sample configuration: no dry-run, backup copies enabled. -/
def wCfgBk : Config := ⟨false, true, false, false, true, true⟩

/-- Concrete sample configuration: no dry-run, backup copies disabled. -/
def wCfgNB : Config := ⟨false, false, false, false, true, true⟩

/-- Concrete sample directory handler for witness statements. -/
def wVDir : VNode := ⟨["spool"], ⟨true, .dir, 0o40755, 0, 0, 0⟩, true, .dir⟩

/-- Concrete sample world containing a non-empty directory. -/
def wWDir : World :=
  [(["spool"], ⟨.dir, ⟨0, 0, 0o755⟩⟩), (["spool", "x"], ⟨.file [1], ⟨0, 0, 0o644⟩⟩)]

/-- Concrete sample pair whose destination does not exist. -/
def wSOm : SyncObject :=
  ⟨["overlay", "motd"], ["etc", "motd"], 0, wStatF, ⟨false, .unknown, 0, 0, 0, 0⟩⟩

/-- Concrete sample world holding only the source file. -/
def wWsrc : World := [(["overlay", "motd"], ⟨.file [104, 105], ⟨0, 0, 0o644⟩⟩)]

/-- Concrete sample destination snapshot with drifted owner. -/
def wStatD : SyncStat := ⟨true, .file, 0o100644, 500, 0, 2⟩

/-- Concrete sample pair with matching content but drifted owner. -/
def wSO4 : SyncObject := ⟨["overlay", "motd"], ["etc", "motd"], 0, wStatF, wStatD⟩

/-- Concrete sample world for the drifted-owner pair. -/
def wW4 : World :=
  [(["overlay", "motd"], ⟨.file [104, 105], ⟨0, 0, 0o644⟩⟩),
   (["etc", "motd"], ⟨.file [104, 105], ⟨500, 0, 0o644⟩⟩)]

/-- The handler vnode_obj builds for the drifted-owner pair. -/
def wV4 : VNode := ⟨["etc", "motd"], wStatF, true, .file ["overlay", "motd"]⟩

/-- The state after fix() creates the missing destination file. -/
def wFix1 : World :=
  VNode.fix wCfgBk noFail ⟨["etc", "motd"], wStatF, false, .file ["overlay", "motd"]⟩ wWsrc

/-- `SyncObject.vnode_obj`: build the handler for the source's type.
A readlink failure on a symlink source is caught, reported and yields
`None`; the `os.stat` of a device source is NOT wrapped, so its failure
propagates as an uncaught OSError; an unhandled source type yields
`None`. -/
def SyncObject.vnode_obj (orc : Oracle) (so : SyncObject) (w : World) :
    Except PyErr (Option VNode) :=
  let ex := so.dest_stat.fsExists
  if so.src_stat.is_file then
    .ok (some ⟨so.dest_path, so.src_stat, ex, .file so.src_path⟩)
  else if so.src_stat.is_dir then
    .ok (some ⟨so.dest_path, so.src_stat, ex, .dir⟩)
  else if so.src_stat.is_link then
    match os_readlink orc w so.src_path with
    | .error _ => .ok none
    | .ok oldpath => .ok (some ⟨so.dest_path, so.src_stat, ex, .link oldpath⟩)
  else if so.src_stat.is_fifo then
    .ok (some ⟨so.dest_path, so.src_stat, ex, .fifo⟩)
  else if so.src_stat.is_chardev then
    match os_stat orc w so.src_path with
    | .error _ => .error .osError
    | .ok st => .ok (some ⟨so.dest_path, so.src_stat, ex, .chardev st⟩)
  else if so.src_stat.is_blockdev then
    match os_stat orc w so.src_path with
    | .error _ => .error .osError
    | .ok st => .ok (some ⟨so.dest_path, so.src_stat, ex, .blkdev st⟩)
  else
    .ok none

/-- The handler variant `vnode_obj` builds when the source entry is
`se` (with `sp` the source content path). -/
def kindOf (se : DEntry) (sp : Path) : VKind :=
  match se.data with
  | .file _ => .file sp
  | .dir => .dir
  | .symlink t => .link t
  | .fifo => .fifo
  | .chardev _ _ => .chardev (rawStatOf se)
  | .blkdev _ _ => .blkdev (rawStatOf se)

/-- The destination payload matches the source payload for the entry
type's notion of content (file bytes, link target, device numbers). -/
def contentMatches : EntryData → EntryData → Prop
  | .file c, .file c2 => c = c2
  | .dir, .dir => True
  | .symlink t, .symlink t2 => t = t2
  | .fifo, .fifo => True
  | .chardev a b, .chardev a2 b2 => a = a2 ∧ b = b2
  | .blkdev a b, .blkdev a2 b2 => a = a2 ∧ b = b2
  | _, _ => False

/-- Result of `SyncObject.check`: either the `(updated, meta_updated)`
pair with the final state, or an uncaught exception (with the state at
the point it was raised). -/
inductive CheckResult
  | ok (updated meta_updated : Bool) (w : World)
  | exn (e : PyErr) (w : World)
deriving DecidableEq

def CheckResult.world : CheckResult → World
  | .ok _ _ w => w
  | .exn _ w => w

def CheckResult.flags : CheckResult → Option (Bool × Bool)
  | .ok u m _ => some (u, m)
  | .exn _ _ => none

/-- `SyncObject.check`: check differences between src and dest and fix
them when not a dry run; returns the pair (updated, metadata_updated).
Calling a method on the `None` returned by a failed `vnode_obj` raises
AttributeError. -/
def SyncObject.check (H : List Nat → List Nat) (cfg : Config) (orc : Oracle)
    (so : SyncObject) (w : World) : CheckResult :=
  if so.dest_stat.fsExists = false then
    match so.vnode_obj orc w with
    | .error e => .exn e w
    | .ok none => .exn .attributeError w
    | .ok (some vnode) => .ok true false (vnode.fix cfg orc w)
  else if so.src_stat.ftype ≠ so.dest_stat.ftype then
    match so.vnode_obj orc w with
    | .error e => .exn e w
    | .ok none => .exn .attributeError w
    | .ok (some vnode) => .ok true false (vnode.fix cfg orc w)
  else
    match so.vnode_obj orc w with
    | .error e => .exn e w
    | .ok none => .exn .attributeError w
    | .ok (some vnode) =>
      if (vnode.compare H orc so.src_path so.dest_stat w).1 = false then
        .ok true false (vnode.fix cfg orc w)
      else
        let ownerDiff := so.src_stat.uid ≠ so.dest_stat.uid ∨ so.src_stat.gid ≠ so.dest_stat.gid
        let w1 := if ownerDiff then vnode.set_owner cfg orc w else w
        let modeDiff := so.src_stat.mode ≠ so.dest_stat.mode
        let w2 := if modeDiff then vnode.set_permissions cfg orc w1 else w1
        .ok false (decide ownerDiff || decide modeDiff) w2

/-! ### Path and world lemmas -/

theorem pathLE_refl (p : Path) : pathLE p p = true := by
  induction p with
  | nil => rfl
  | cons a p ih => simp [pathLE, ih]

theorem pathLE_append (p t : Path) : pathLE p (p ++ t) = true := by
  induction p with
  | nil => rfl
  | cons a p ih => simp [pathLE, ih]

theorem pathLE_length {p q : Path} (h : pathLE p q = true) : p.length ≤ q.length := by
  induction p generalizing q with
  | nil => simp
  | cons a p ih =>
    cases q with
    | nil => simp [pathLE] at h
    | cons b q =>
      by_cases hab : a = b
      · simp only [pathLE, if_pos hab] at h
        simpa using ih h
      · simp [pathLE, hab] at h

theorem pathLE_eq_of_length {p q : Path} (h : pathLE p q = true)
    (hl : q.length ≤ p.length) : p = q := by
  induction p generalizing q with
  | nil =>
    cases q with
    | nil => rfl
    | cons b q => simp at hl
  | cons a p ih =>
    cases q with
    | nil => simp [pathLE] at h
    | cons b q =>
      by_cases hab : a = b
      · simp only [pathLE, if_pos hab] at h
        simp only [List.length_cons] at hl
        exact hab ▸ congrArg (a :: ·) (ih h (by omega))
      · simp [pathLE, hab] at h

theorem pathLE_decomp {p q : Path} (h : pathLE p q = true) :
    p ++ q.drop p.length = q := by
  induction p generalizing q with
  | nil => simp
  | cons a p ih =>
    cases q with
    | nil => simp [pathLE] at h
    | cons b q =>
      by_cases hab : a = b
      · simp only [pathLE, if_pos hab] at h
        simpa [hab] using ih h
      · simp [pathLE, hab] at h

theorem World.find_erase_self (w : World) (p : Path) : (w.erase p).find p = none := by
  induction w with
  | nil => rfl
  | cons qe w ih =>
    by_cases h : qe.1 = p
    · simpa [World.erase, h] using ih
    · simpa [World.erase, World.find, h] using ih

theorem World.find_erase_ne (w : World) {p q : Path} (h : q ≠ p) :
    (w.erase p).find q = w.find q := by
  induction w with
  | nil => rfl
  | cons re w ih =>
    obtain ⟨a, e⟩ := re
    by_cases h1 : a = p
    · have h2 : a ≠ q := by rw [h1]; exact fun hc => h hc.symm
      rw [World.erase, if_pos h1, World.find, if_neg h2]
      exact ih
    · rw [World.erase, if_neg h1]
      by_cases h2 : a = q
      · rw [World.find, if_pos h2, World.find, if_pos h2]
      · rw [World.find, if_neg h2, World.find, if_neg h2]
        exact ih

theorem World.find_set_self (w : World) (p : Path) (e : DEntry) :
    (w.set p e).find p = some e := by
  simp [World.set, World.find]

theorem World.find_set_ne (w : World) {p q : Path} (e : DEntry) (h : q ≠ p) :
    (w.set p e).find q = w.find q := by
  have h2 : p ≠ q := fun hc => h hc.symm
  rw [World.set, World.find, if_neg h2]
  exact World.find_erase_ne w h

theorem find_renameTree_dst (w : World) {src dst : Path}
    (h : pathLE dst src = false) :
    (w.renameTree src dst).find dst = w.find src := by
  induction w with
  | nil => rfl
  | cons qe w ih =>
    obtain ⟨q, e⟩ := qe
    by_cases h1 : pathLE src q = true
    · by_cases h2 : q = src
      · subst h2
        simp [World.renameTree, List.filterMap_cons, renameKey, h1, World.find]
      · have hlt : src.length < q.length := by
          rcases Nat.lt_or_ge src.length q.length with hl | hl
          · exact hl
          · exact absurd (pathLE_eq_of_length h1 hl).symm h2
        have hkey : dst ++ q.drop src.length ≠ dst := by
          intro hc
          have := congrArg List.length hc
          simp only [List.length_append, List.length_drop] at this
          omega
        simpa [World.renameTree, List.filterMap_cons, renameKey, h1, World.find, hkey, h2]
          using ih
    · by_cases h2 : pathLE dst q = true
      · have hq : q ≠ src := by
          intro hc; rw [hc] at h1; exact h1 (pathLE_refl src)
        simpa [World.renameTree, List.filterMap_cons, renameKey, h1, h2, World.find, hq]
          using ih
      · have hq : q ≠ src := by
          intro hc; rw [hc] at h1; exact h1 (pathLE_refl src)
        have hqd : q ≠ dst := by
          intro hc; rw [hc] at h2; exact h2 (pathLE_refl dst)
        simpa [World.renameTree, List.filterMap_cons, renameKey, h1, h2, World.find, hq, hqd]
          using ih

theorem find_renameTree_src (w : World) {src dst : Path}
    (h : pathLE dst src = false) :
    (w.renameTree src dst).find src = none := by
  induction w with
  | nil => rfl
  | cons qe w ih =>
    obtain ⟨q, e⟩ := qe
    by_cases h1 : pathLE src q = true
    · have hkey : dst ++ q.drop src.length ≠ src := by
        intro hc
        have happ := pathLE_append dst (q.drop src.length)
        rw [hc] at happ
        rw [happ] at h
        simp at h
      simpa [World.renameTree, List.filterMap_cons, renameKey, h1, World.find, hkey] using ih
    · by_cases h2 : pathLE dst q = true
      · simpa [World.renameTree, List.filterMap_cons, renameKey, h1, h2] using ih
      · have hq : q ≠ src := by
          intro hc; rw [hc] at h1; exact h1 (pathLE_refl src)
        simpa [World.renameTree, List.filterMap_cons, renameKey, h1, h2, World.find, hq]
          using ih

theorem find_renameTree_other (w : World) {src dst r : Path}
    (h1 : pathLE src r = false) (h2 : pathLE dst r = false) :
    (w.renameTree src dst).find r = w.find r := by
  induction w with
  | nil => rfl
  | cons qe w ih =>
    obtain ⟨q, e⟩ := qe
    by_cases hq1 : pathLE src q = true
    · have hkey : dst ++ q.drop src.length ≠ r := by
        intro hc
        have happ := pathLE_append dst (q.drop src.length)
        rw [hc] at happ
        rw [happ] at h2
        simp at h2
      have hqr : q ≠ r := by
        intro hc; rw [hc] at hq1; exact absurd hq1 (by simp [h1])
      simpa [World.renameTree, List.filterMap_cons, renameKey, hq1, World.find, hkey, hqr]
        using ih
    · by_cases hq2 : pathLE dst q = true
      · have hqr : q ≠ r := by
          intro hc; rw [hc] at hq2; exact absurd hq2 (by simp [h2])
        simpa [World.renameTree, List.filterMap_cons, renameKey, hq1, hq2, World.find, hqr]
          using ih
      · rw [Bool.not_eq_true] at hq1 hq2
        by_cases hqr : q = r
        · subst hqr
          simp [World.renameTree, List.filterMap_cons, renameKey, hq1, hq2, World.find]
        · simpa [World.renameTree, List.filterMap_cons, renameKey, hq1, hq2, World.find, hqr]
            using ih

theorem find_mkdir_p_ne (dirs : List Path) (w : World) (q : Path)
    (h : ∀ d ∈ dirs, d ≠ q) : (mkdir_p w dirs).find q = w.find q := by
  induction dirs generalizing w with
  | nil => rfl
  | cons d ds ih =>
    have hd : d ≠ q := h d (by simp)
    have hstep : ∀ w2 : World, mkdir_p w2 (d :: ds) =
        mkdir_p (if (World.find w2 d).isSome then w2 else w2.set d ⟨.dir, ⟨0, 0, 0o755⟩⟩) ds := by
      intro w2; rfl
    rw [hstep]
    by_cases hs : (World.find w d).isSome
    · rw [if_pos hs]; exact ih w (fun d2 hm => h d2 (by simp [hm]))
    · rw [if_neg hs]
      rw [ih _ (fun d2 hm => h d2 (by simp [hm]))]
      exact World.find_set_ne w _ (fun hc => hd hc.symm)

theorem find_mkdir_p_isSome (dirs : List Path) (w : World) (q : Path)
    (h : (w.find q).isSome) : (mkdir_p w dirs).find q = w.find q := by
  induction dirs generalizing w with
  | nil => rfl
  | cons d ds ih =>
    have hstep : ∀ w2 : World, mkdir_p w2 (d :: ds) =
        mkdir_p (if (World.find w2 d).isSome then w2 else w2.set d ⟨.dir, ⟨0, 0, 0o755⟩⟩) ds := by
      intro w2; rfl
    rw [hstep]
    by_cases hs : (World.find w d).isSome
    · rw [if_pos hs]; exact ih w h
    · rw [if_neg hs]
      have hd : d ≠ q := by
        intro hc; rw [hc] at hs; exact hs h
      have hpres : (w.set d ⟨.dir, ⟨0, 0, 0o755⟩⟩).find q = w.find q :=
        World.find_set_ne w _ (fun hc => hd hc.symm)
      rw [ih _ (by rw [hpres]; exact h), hpres]

theorem savedPath_length : ∀ p : Path, (savedPath p).length = p.length
  | [] => rfl
  | [_] => rfl
  | _ :: b :: p => by
    simp only [savedPath, List.length_cons]
    rw [savedPath_length (b :: p)]
    simp

theorem string_append_saved_ne (a : String) : a ++ ".saved" ≠ a := by
  intro h
  have h2 := congrArg String.length h
  rw [String.length_append] at h2
  have h6 : ".saved".length = 6 := rfl
  omega

theorem savedPath_ne : ∀ p : Path, p ≠ [] → savedPath p ≠ p
  | [], h => absurd rfl h
  | [a], _ => by
    simp only [savedPath, ne_eq, List.cons.injEq, and_true]
    exact string_append_saved_ne a
  | a :: b :: p, _ => by
    simp only [savedPath, ne_eq, List.cons.injEq, true_and]
    exact savedPath_ne (b :: p) (by simp)

theorem pathLE_of_saved (p : Path) (h : p ≠ []) : pathLE (savedPath p) p = false := by
  by_cases hb : pathLE (savedPath p) p = true
  · exact absurd (pathLE_eq_of_length hb (by rw [savedPath_length])) (savedPath_ne p h)
  · simpa using hb

theorem pathLE_to_saved (p : Path) (h : p ≠ []) : pathLE p (savedPath p) = false := by
  by_cases hb : pathLE p (savedPath p) = true
  · exact absurd (pathLE_eq_of_length hb (by rw [savedPath_length]))
      (fun hc => savedPath_ne p h hc.symm)
  · simpa using hb

theorem prefixesOf_length {r q : Path} (h : q ∈ prefixesOf r) : q.length ≤ r.length := by
  induction r generalizing q with
  | nil => simp [prefixesOf] at h
  | cons a p ih =>
    simp only [prefixesOf, List.mem_cons, List.mem_map] at h
    rcases h with h | ⟨q2, hm, hq⟩
    · subst h; simp
    · subst hq
      simpa using ih hm

theorem parentPaths_length {p q : Path} (h : q ∈ parentPaths p) : q.length < p.length := by
  cases p with
  | nil => simp [parentPaths, prefixesOf] at h
  | cons a p =>
    have h2 := prefixesOf_length (r := (a :: p).dropLast) h
    have h3 : (a :: p).dropLast.length = p.length := by
      simp [List.length_dropLast]
    rw [h3] at h2
    simp only [List.length_cons]
    omega

/-! ### Permission-mask arithmetic -/

theorem land_7777 (x : Nat) : x &&& 0o7777 = x % 0o10000 := by
  have h := Nat.and_pow_two_sub_one_eq_mod x 12
  norm_num at h
  exact h

theorem land_7777_idem (x : Nat) : (x &&& 0o7777) &&& 0o7777 = x &&& 0o7777 := by
  rw [land_7777, land_7777]
  omega

theorem typeBits_add_land (t : FType) (r : Nat) :
    (typeBits t + (r &&& 0o7777)) &&& 0o7777 = r &&& 0o7777 := by
  rw [land_7777, land_7777]
  cases t <;> simp [typeBits] <;> omega

/-! ### Dry-run behaviour of each operation -/

theorem move_saved_dry (cfg : Config) (orc : Oracle) (v : VNode) (w : World)
    (hdry : cfg.dryRun = true) : (VNode.move_saved cfg orc v w).1 = w := by
  simp [VNode.move_saved, hdry]

theorem harddelete_dry (cfg : Config) (orc : Oracle) (v : VNode) (w : World)
    (hdry : cfg.dryRun = true) : (VNode.harddelete cfg orc v w).1 = w := by
  cases hk : v.kind <;> simp [VNode.harddelete, hk, hdry]

theorem quiet_delete_dry (cfg : Config) (orc : Oracle) (v : VNode) (w : World)
    (hdry : cfg.dryRun = true) : VNode.quiet_delete cfg orc v w = w := by
  cases hk : v.kind <;> simp [VNode.quiet_delete, hk, hdry]

theorem mkdir_basepath_dry (cfg : Config) (v : VNode) (w : World)
    (hdry : cfg.dryRun = true) : VNode.mkdir_basepath cfg v w = w := by
  simp [VNode.mkdir_basepath, hdry]

theorem create_dry (cfg : Config) (orc : Oracle) (v : VNode) (w : World)
    (hdry : cfg.dryRun = true) : VNode.create cfg orc v w = w := by
  cases hk : v.kind <;> simp [VNode.create, hk, hdry]

theorem set_owner_dry (cfg : Config) (orc : Oracle) (v : VNode) (w : World)
    (hdry : cfg.dryRun = true) : VNode.set_owner cfg orc v w = w := by
  cases hk : v.kind <;> simp [VNode.set_owner, hk, hdry]

theorem set_permissions_dry (cfg : Config) (orc : Oracle) (v : VNode) (w : World)
    (hdry : cfg.dryRun = true) : VNode.set_permissions cfg orc v w = w := by
  cases hk : v.kind <;> simp [VNode.set_permissions, hk, hdry]

theorem set_times_dry (cfg : Config) (orc : Oracle) (v : VNode)
    (atime mtime : Nat) (w : World)
    (hdry : cfg.dryRun = true) : VNode.set_times cfg orc v atime mtime w = w := by
  simp [VNode.set_times, hdry]

theorem fix_dry (cfg : Config) (orc : Oracle) (v : VNode) (w : World)
    (hdry : cfg.dryRun = true) : VNode.fix cfg orc v w = w := by
  unfold VNode.fix
  simp only [move_saved_dry cfg orc v w hdry, quiet_delete_dry cfg orc v w hdry, ite_self,
    mkdir_basepath_dry cfg v w hdry, create_dry cfg orc v w hdry,
    set_owner_dry cfg orc v w hdry, set_permissions_dry cfg orc v w hdry]

theorem check_dry_world (H : List Nat → List Nat) (cfg : Config) (orc : Oracle)
    (so : SyncObject) (w : World)
    (hdry : cfg.dryRun = true) : (SyncObject.check H cfg orc so w).world = w := by
  unfold SyncObject.check
  by_cases h1 : so.dest_stat.fsExists = false
  · simp only [if_pos h1]
    cases so.vnode_obj orc w with
    | error e => rfl
    | ok o =>
      cases o with
      | none => rfl
      | some v => simp [CheckResult.world, fix_dry cfg orc v w hdry]
  · simp only [if_neg h1]
    by_cases h2 : so.src_stat.ftype ≠ so.dest_stat.ftype
    · simp only [if_pos h2]
      cases so.vnode_obj orc w with
      | error e => rfl
      | ok o =>
        cases o with
        | none => rfl
        | some v => simp [CheckResult.world, fix_dry cfg orc v w hdry]
    · simp only [if_neg h2]
      cases so.vnode_obj orc w with
      | error e => rfl
      | ok o =>
        cases o with
        | none => rfl
        | some v =>
          by_cases h3 : (v.compare H orc so.src_path so.dest_stat w).1 = false
          · simp only [if_pos h3]
            simp [CheckResult.world, fix_dry cfg orc v w hdry]
          · simp only [if_neg h3]
            simp [CheckResult.world, set_owner_dry cfg orc v w hdry,
              set_permissions_dry cfg orc v _ hdry]

theorem check_flags_cfg (H : List Nat → List Nat) (cfg1 cfg2 : Config) (orc : Oracle)
    (so : SyncObject) (w : World) :
    (SyncObject.check H cfg1 orc so w).flags = (SyncObject.check H cfg2 orc so w).flags := by
  unfold SyncObject.check
  by_cases h1 : so.dest_stat.fsExists = false
  · simp only [if_pos h1]
    cases so.vnode_obj orc w with
    | error e => rfl
    | ok o => cases o <;> rfl
  · simp only [if_neg h1]
    by_cases h2 : so.src_stat.ftype ≠ so.dest_stat.ftype
    · simp only [if_pos h2]
      cases so.vnode_obj orc w with
      | error e => rfl
      | ok o => cases o <;> rfl
    · simp only [if_neg h2]
      cases so.vnode_obj orc w with
      | error e => rfl
      | ok o =>
        cases o with
        | none => rfl
        | some v =>
          by_cases h3 : (v.compare H orc so.src_path so.dest_stat w).1 = false
          · simp only [if_pos h3]; rfl
          · simp only [if_neg h3]; rfl

/-- C1: with the dry-run flag enabled, none of the operations
(move_saved, harddelete, quiet_delete, mkdir_basepath, create,
set_owner, set_permissions, set_times, fix, check) changes the
filesystem state, and check() reports the same
(contentChanged, metadataChanged) pair that the non-dry-run pass over
the same initial state computes. -/
theorem dry_run_invariant (H : List Nat → List Nat) (cfg : Config) (orc : Oracle)
    (v : VNode) (so : SyncObject) (w : World) (atime mtime : Nat)
    (hdry : cfg.dryRun = true) :
    (VNode.move_saved cfg orc v w).1 = w ∧
    (VNode.harddelete cfg orc v w).1 = w ∧
    VNode.quiet_delete cfg orc v w = w ∧
    VNode.mkdir_basepath cfg v w = w ∧
    VNode.create cfg orc v w = w ∧
    VNode.set_owner cfg orc v w = w ∧
    VNode.set_permissions cfg orc v w = w ∧
    VNode.set_times cfg orc v atime mtime w = w ∧
    VNode.fix cfg orc v w = w ∧
    (SyncObject.check H cfg orc so w).world = w ∧
    (SyncObject.check H cfg orc so w).flags =
      (SyncObject.check H { cfg with dryRun := false } orc so w).flags :=
  ⟨move_saved_dry cfg orc v w hdry, harddelete_dry cfg orc v w hdry,
   quiet_delete_dry cfg orc v w hdry, mkdir_basepath_dry cfg v w hdry,
   create_dry cfg orc v w hdry, set_owner_dry cfg orc v w hdry,
   set_permissions_dry cfg orc v w hdry, set_times_dry cfg orc v atime mtime w hdry,
   fix_dry cfg orc v w hdry, check_dry_world H cfg orc so w hdry,
   check_flags_cfg H cfg _ orc so w⟩

/-- C1 witness: the dry-run invariant instantiated on a concrete
configuration, handler, pair and world. -/
theorem dry_run_invariant_witness :
    (VNode.move_saved wCfgDry noFail wVF wW).1 = wW ∧
    (VNode.harddelete wCfgDry noFail wVF wW).1 = wW ∧
    VNode.quiet_delete wCfgDry noFail wVF wW = wW ∧
    VNode.mkdir_basepath wCfgDry wVF wW = wW ∧
    VNode.create wCfgDry noFail wVF wW = wW ∧
    VNode.set_owner wCfgDry noFail wVF wW = wW ∧
    VNode.set_permissions wCfgDry noFail wVF wW = wW ∧
    VNode.set_times wCfgDry noFail wVF 0 0 wW = wW ∧
    VNode.fix wCfgDry noFail wVF wW = wW ∧
    (SyncObject.check id wCfgDry noFail wSO wW).world = wW ∧
    (SyncObject.check id wCfgDry noFail wSO wW).flags =
      (SyncObject.check id { wCfgDry with dryRun := false } noFail wSO wW).flags :=
  dry_run_invariant id wCfgDry noFail wVF wSO wW 0 0 rfl

/-! ### Inversion lemmas for the syscall primitives -/

theorem os_rename_ok {orc : Oracle} {w : World} {src dst : Path} {w2 : World}
    (h : os_rename orc w src dst = .ok w2) : w2 = w.renameTree src dst := by
  unfold os_rename at h
  split at h
  · cases h
  · split at h
    · cases h
    · split at h
      · split at h
        · cases h
        · cases h; rfl
      · cases h; rfl

theorem os_unlink_ok {orc : Oracle} {w : World} {p : Path} {w2 : World}
    (h : os_unlink orc w p = .ok w2) : w2 = w.erase p := by
  unfold os_unlink at h
  split at h
  · cases h
  · split at h
    · cases h
    · split at h
      · cases h
      · cases h; rfl

theorem os_rmdir_ok {orc : Oracle} {w : World} {p : Path} {w2 : World}
    (h : os_rmdir orc w p = .ok w2) : w2 = w.erase p := by
  unfold os_rmdir at h
  split at h
  · cases h
  · split at h
    · cases h
    · split at h
      · cases h
      · split at h
        · cases h
        · cases h; rfl

theorem os_mkdir_ok {orc : Oracle} {w : World} {p : Path} {m : Nat} {w2 : World}
    (h : os_mkdir orc w p m = .ok w2) : w2 = w.set p ⟨.dir, ⟨0, 0, m⟩⟩ := by
  unfold os_mkdir at h
  split at h
  · cases h
  · split at h
    · cases h
    · cases h; rfl

theorem os_chown_ok {orc : Oracle} {w : World} {p : Path} {u g : Nat} {w2 : World}
    (h : os_chown orc w p u g = .ok w2) :
    ∃ e, w.find p = some e ∧ w2 = w.set p ⟨e.data, ⟨u, g, e.meta.mode⟩⟩ := by
  unfold os_chown at h
  split at h
  · cases h
  · split at h
    · cases h
    · cases h
      rename_i e he
      exact ⟨e, he, rfl⟩

theorem os_chmod_ok {orc : Oracle} {w : World} {p : Path} {m : Nat} {w2 : World}
    (h : os_chmod orc w p m = .ok w2) :
    ∃ e, w.find p = some e ∧ w2 = w.set p ⟨e.data, ⟨e.meta.uid, e.meta.gid, m⟩⟩ := by
  unfold os_chmod at h
  split at h
  · cases h
  · split at h
    · cases h
    · cases h
      rename_i e he
      exact ⟨e, he, rfl⟩

theorem os_symlink_ok {orc : Oracle} {w : World} {t : String} {p : Path} {w2 : World}
    (h : os_symlink orc w t p = .ok w2) : w2 = w.set p ⟨.symlink t, ⟨0, 0, 0o777⟩⟩ := by
  unfold os_symlink at h
  split at h
  · cases h
  · split at h
    · cases h
    · cases h; rfl

theorem os_mkfifo_ok {orc : Oracle} {w : World} {p : Path} {m : Nat} {w2 : World}
    (h : os_mkfifo orc w p m = .ok w2) : w2 = w.set p ⟨.fifo, ⟨0, 0, m⟩⟩ := by
  unfold os_mkfifo at h
  split at h
  · cases h
  · split at h
    · cases h
    · cases h; rfl

theorem os_mknod_ok {orc : Oracle} {w : World} {p : Path} {d : EntryData} {m : Nat}
    {w2 : World} (h : os_mknod orc w p d m = .ok w2) : w2 = w.set p ⟨d, ⟨0, 0, m⟩⟩ := by
  unfold os_mknod at h
  split at h
  · cases h
  · split at h
    · cases h
    · cases h; rfl

theorem os_utime_ok {orc : Oracle} {w : World} {p : Path} {w2 : World}
    (h : os_utime orc w p = .ok w2) : w2 = w := by
  unfold os_utime at h
  split at h
  · cases h
  · split at h
    · cases h
    · cases h; rfl

theorem shutil_copy_ok {orc : Oracle} {w : World} {src dst : Path} {w2 : World}
    (h : shutil_copy orc w src dst = .ok w2) :
    ∃ tgt e, (tgt = dst ∨ tgt.length = dst.length + 1) ∧ w2 = w.set tgt e := by
  unfold shutil_copy at h
  split at h
  · cases h
  · split at h
    · split at h
      · cases h
        refine ⟨copyTarget w src dst, _, ?_, rfl⟩
        unfold copyTarget
        split
        · split
          · right; simp
          · left; rfl
        · left; rfl
      · cases h
    · cases h

/-! ### Frame lemmas: which paths each operation can touch -/

theorem find_mkdir_basepath_preserved (cfg : Config) (v : VNode) (w : World) (q : Path)
    (hlen : v.name.length ≤ q.length) :
    (VNode.mkdir_basepath cfg v w).find q = w.find q := by
  unfold VNode.mkdir_basepath
  split
  · rfl
  · exact find_mkdir_p_ne _ w q
      (fun d hd hc => by
        have := parentPaths_length hd
        rw [hc] at this
        omega)

theorem find_create_preserved (cfg : Config) (orc : Oracle) (v : VNode) (w : World)
    (q : Path) (hq : q ≠ v.name) (hlen : q.length ≠ v.name.length + 1) :
    (VNode.create cfg orc v w).find q = w.find q := by
  cases hk : v.kind with
  | file sp =>
    simp only [VNode.create, hk]
    split
    · rfl
    · cases hcp : shutil_copy orc w sp v.name with
      | error u => rfl
      | ok w2 =>
        obtain ⟨tgt, e, htgt, rfl⟩ := shutil_copy_ok hcp
        refine World.find_set_ne w e ?_
        rcases htgt with h | h
        · rw [h]; exact hq
        · intro hc; rw [hc] at hlen; omega
  | dir =>
    simp only [VNode.create, hk]
    split
    · rfl
    · split
      · rfl
      · cases hcp : os_mkdir orc w v.name (v.stat.mode &&& 0o7777) with
        | error u => rfl
        | ok w2 => rw [os_mkdir_ok hcp]; exact World.find_set_ne w _ hq
  | link t =>
    simp only [VNode.create, hk]
    split
    · rfl
    · cases hcp : os_symlink orc w t v.name with
      | error u => rfl
      | ok w2 => rw [os_symlink_ok hcp]; exact World.find_set_ne w _ hq
  | fifo =>
    simp only [VNode.create, hk]
    split
    · rfl
    · cases hcp : os_mkfifo orc w v.name (v.stat.mode &&& 0o777) with
      | error u => rfl
      | ok w2 => rw [os_mkfifo_ok hcp]; exact World.find_set_ne w _ hq
  | chardev st =>
    simp only [VNode.create, hk]
    split
    · rfl
    · cases hcp : os_mknod orc w v.name
          (.chardev st.st_rdev_major st.st_rdev_minor) (st.st_mode &&& 0o777) with
      | error u => rfl
      | ok w2 => rw [os_mknod_ok hcp]; exact World.find_set_ne w _ hq
  | blkdev st =>
    simp only [VNode.create, hk]
    split
    · rfl
    · cases hcp : os_mknod orc w v.name
          (.blkdev st.st_rdev_major st.st_rdev_minor) (st.st_mode &&& 0o777) with
      | error u => rfl
      | ok w2 => rw [os_mknod_ok hcp]; exact World.find_set_ne w _ hq

theorem find_set_owner_preserved (cfg : Config) (orc : Oracle) (v : VNode) (w : World)
    (q : Path) (hq : q ≠ v.name) :
    (VNode.set_owner cfg orc v w).find q = w.find q := by
  have hcb : ∀ u g, World.find (match os_chown orc w v.name u g with
      | .ok w2 => w2 | .error _ => w) q = w.find q := by
    intro u g
    cases hcp : os_chown orc w v.name u g with
    | error u2 => rfl
    | ok w2 =>
      obtain ⟨e, _, rfl⟩ := os_chown_ok hcp
      exact World.find_set_ne w _ hq
  cases hk : v.kind <;> simp only [VNode.set_owner, hk]
  case link t =>
    split
    · rfl
    · split
      · rfl
      · exact hcb _ _
  all_goals
    split
    · rfl
    · exact hcb _ _

theorem find_set_permissions_preserved (cfg : Config) (orc : Oracle) (v : VNode) (w : World)
    (q : Path) (hq : q ≠ v.name) :
    (VNode.set_permissions cfg orc v w).find q = w.find q := by
  have hcb : ∀ m, World.find (match os_chmod orc w v.name m with
      | .ok w2 => w2 | .error _ => w) q = w.find q := by
    intro m
    cases hcp : os_chmod orc w v.name m with
    | error u2 => rfl
    | ok w2 =>
      obtain ⟨e, _, rfl⟩ := os_chmod_ok hcp
      exact World.find_set_ne w _ hq
  cases hk : v.kind <;> simp only [VNode.set_permissions, hk]
  case link t =>
    split
    · rfl
    · split
      · rfl
      · exact hcb _
  all_goals
    split
    · rfl
    · exact hcb _

theorem find_quiet_delete_preserved (cfg : Config) (orc : Oracle) (v : VNode) (w : World)
    (q : Path) (hk : v.kind ≠ VKind.dir) (hq : q ≠ v.name) :
    (VNode.quiet_delete cfg orc v w).find q = w.find q := by
  have hcb : World.find (match os_unlink orc w v.name with
      | .ok w2 => w2 | .error _ => w) q = w.find q := by
    cases hcp : os_unlink orc w v.name with
    | error u2 => rfl
    | ok w2 => rw [os_unlink_ok hcp]; exact World.find_erase_ne w hq
  cases hkk : v.kind with
  | dir => exact absurd hkk hk
  | file sp => simp only [VNode.quiet_delete, hkk]; split; exacts [hcb, rfl]
  | link t => simp only [VNode.quiet_delete, hkk]; split; exacts [hcb, rfl]
  | fifo => simp only [VNode.quiet_delete, hkk]; split; exacts [hcb, rfl]
  | chardev st => simp only [VNode.quiet_delete, hkk]; split; exacts [hcb, rfl]
  | blkdev st => simp only [VNode.quiet_delete, hkk]; split; exacts [hcb, rfl]

/-- C10: with backup copies enabled and dry-run off, the directory
variant's harddelete() performs no filesystem operation at all — the
directory is neither removed nor renamed to `<name>.saved` — although it
still prints the deletion message, the `rmdir` shell echo and the terse
delete tag; the base (file) variant's harddelete() unlinks the
destination even with backups enabled. -/
theorem harddelete_backup_frame (cfg : Config) (orc : Oracle) (v : VNode) (w : World)
    (hdry : cfg.dryRun = false) (hbk : cfg.backupCopies = true) :
    (v.kind = VKind.dir →
      VNode.harddelete cfg orc v w =
        (w, [OutEvent.stdoutLine ("removing " ++ pathStr v.name ++ "/"),
             OutEvent.unixOut ("rmdir " ++ pathStr v.name),
             OutEvent.terseEv TerseTag.delete (pathStr v.name ++ "/")])) ∧
    (∀ sp e, v.kind = VKind.file sp → w.find v.name = some e → e.data.isDir = false →
      orc.sysFail (Sys.unlink v.name) = false →
      (VNode.harddelete cfg orc v w).1.find v.name = none) := by
  constructor
  · intro hk
    simp [VNode.harddelete, hk, hdry, hbk]
  · intro sp e hk hfind hdir hsys
    have hul : os_unlink orc w v.name = .ok (w.erase v.name) := by
      simp [os_unlink, hsys, hfind, hdir]
    simp [VNode.harddelete, hk, hdry, hul, World.find_erase_self]

/-- C10 witness: the frame property of harddelete instantiated: the
directory variant leaves the concrete world untouched while emitting its
three output events; the file variant removes the destination entry. -/
theorem harddelete_backup_frame_witness :
    VNode.harddelete wCfgBk noFail wVDir wWDir =
      (wWDir, [OutEvent.stdoutLine ("removing " ++ pathStr wVDir.name ++ "/"),
               OutEvent.unixOut ("rmdir " ++ pathStr wVDir.name),
               OutEvent.terseEv TerseTag.delete (pathStr wVDir.name ++ "/")]) ∧
    (VNode.harddelete wCfgBk noFail wVF wW).1.find wVF.name = none :=
  ⟨(harddelete_backup_frame wCfgBk noFail wVDir wWDir rfl rfl).1 rfl,
   (harddelete_backup_frame wCfgBk noFail wVF wW rfl rfl).2 ["overlay", "motd"]
     ⟨.file [104, 105], ⟨0, 0, 0o644⟩⟩ rfl rfl rfl rfl⟩

/-- C7: for the directory handler, harddelete() of a non-empty directory
never lets the rmdir failure escape: the failure is caught and the
directory is renamed aside to `<name>.saved` — moved, not removed. -/
theorem harddelete_dir_nonempty (cfg : Config) (v : VNode) (w : World) (e : DEntry)
    (hk : v.kind = VKind.dir) (hdry : cfg.dryRun = false) (hbk : cfg.backupCopies = false)
    (hne : v.name ≠ []) (hfind : w.find v.name = some e)
    (hchild : w.hasChild v.name = true)
    (hsaved : w.find (savedPath v.name) = none) :
    (VNode.harddelete cfg noFail v w).1.find (savedPath v.name) = some e ∧
    (VNode.harddelete cfg noFail v w).1.find v.name = none := by
  have hps := pathLE_of_saved v.name hne
  have hrm : os_rmdir noFail w v.name = .error () := by
    unfold os_rmdir
    simp only [noFail, hfind, hchild]
    split
    · rfl
    · simp
  have hrn : os_rename noFail w v.name (savedPath v.name) =
      .ok (w.renameTree v.name (savedPath v.name)) := by
    unfold os_rename
    simp [noFail, hfind, hsaved]
  have hworld : (VNode.harddelete cfg noFail v w).1 =
      w.renameTree v.name (savedPath v.name) := by
    simp [VNode.harddelete, hk, hdry, hbk, hrm, VNode.move_saved, hrn]
  rw [hworld]
  exact ⟨by rw [find_renameTree_dst w hps, hfind], find_renameTree_src w hps⟩

/-- C7 witness: the non-empty-directory downgrade on a concrete world:
the directory ends up at `<name>.saved` and is gone from its old path. -/
theorem harddelete_dir_nonempty_witness :
    (VNode.harddelete wCfgNB noFail wVDir wWDir).1.find (savedPath wVDir.name) =
      some ⟨.dir, ⟨0, 0, 0o755⟩⟩ ∧
    (VNode.harddelete wCfgNB noFail wVDir wWDir).1.find wVDir.name = none :=
  harddelete_dir_nonempty wCfgNB wVDir wWDir ⟨.dir, ⟨0, 0, 0o755⟩⟩ rfl rfl rfl
    (by decide) rfl (by decide) rfl

/-- C6 (amended): fix() is exactly the sequence save-or-silently-delete,
ensure parent chain, create, set owner, set permissions; after a
non-dry-run fix() with backups enabled on an existing destination the
sibling `<name>.saved` holds the pre-fix entry; with backups disabled no
`.saved` sibling is produced by any NON-directory handler — the
directory handler's silent delete falls back to renaming aside when its
rmdir fails, which can produce a `.saved` sibling even with backups
disabled. -/
theorem fix_sequence_and_backup (cfg : Config) (orc : Oracle) (v : VNode) (w : World)
    (hne : v.name ≠ []) :
    (VNode.fix cfg orc v w =
       VNode.set_permissions cfg orc v (VNode.set_owner cfg orc v
         (VNode.create cfg orc v (VNode.mkdir_basepath cfg v
           (if v.fsExists then
              (if cfg.backupCopies then (VNode.move_saved cfg orc v w).1
               else VNode.quiet_delete cfg orc v w)
            else w))))) ∧
    (∀ e, cfg.dryRun = false → cfg.backupCopies = true → v.fsExists = true →
       w.find v.name = some e → w.find (savedPath v.name) = none →
       (VNode.fix cfg noFail v w).find (savedPath v.name) = some e) ∧
    (cfg.backupCopies = false → v.kind ≠ VKind.dir →
       w.find (savedPath v.name) = none →
       (VNode.fix cfg orc v w).find (savedPath v.name) = none) := by
  have hsv_ne : savedPath v.name ≠ v.name := savedPath_ne v.name hne
  have hsv_len : (savedPath v.name).length = v.name.length := savedPath_length v.name
  refine ⟨rfl, ?_, ?_⟩
  · intro e hdry hbk hex hfind hsaved
    have hps := pathLE_of_saved v.name hne
    have hrn : os_rename noFail w v.name (savedPath v.name) =
        .ok (w.renameTree v.name (savedPath v.name)) := by
      unfold os_rename
      simp [noFail, hfind, hsaved]
    have hw1 : (VNode.move_saved cfg noFail v w).1 =
        w.renameTree v.name (savedPath v.name) := by
      simp [VNode.move_saved, hdry, hrn]
    unfold VNode.fix
    simp only [hex, hbk, if_true, hw1]
    rw [find_set_permissions_preserved _ _ _ _ _ hsv_ne,
        find_set_owner_preserved _ _ _ _ _ hsv_ne,
        find_create_preserved _ _ _ _ _ hsv_ne (by omega),
        find_mkdir_basepath_preserved _ _ _ _ (by omega),
        find_renameTree_dst w hps, hfind]
  · intro hbk hkd hsaved
    have hchain : ∀ w0 : World, w0.find (savedPath v.name) = none →
        (VNode.set_permissions cfg orc v (VNode.set_owner cfg orc v
          (VNode.create cfg orc v (VNode.mkdir_basepath cfg v w0)))).find
            (savedPath v.name) = none := by
      intro w0 h0
      rw [find_set_permissions_preserved _ _ _ _ _ hsv_ne,
          find_set_owner_preserved _ _ _ _ _ hsv_ne,
          find_create_preserved _ _ _ _ _ hsv_ne (by omega),
          find_mkdir_basepath_preserved _ _ _ _ (by omega), h0]
    unfold VNode.fix
    by_cases hex : v.fsExists = true
    · have hqd : (VNode.quiet_delete cfg orc v w).find (savedPath v.name) = none := by
        rw [find_quiet_delete_preserved cfg orc v w _ hkd hsv_ne, hsaved]
      simp only [hex, hbk, if_true, Bool.false_eq_true, if_false]
      exact hchain _ hqd
    · simp only [Bool.not_eq_true] at hex
      simp only [hex, Bool.false_eq_true, if_false]
      exact hchain w hsaved

/-- C6 counterexample: with backups disabled (and dry-run off), the
DIRECTORY handler's fix() on a destination whose rmdir fails (here: the
destination is a regular file) falls back to move_saved and produces a
`.saved` sibling holding the old entry — refuting "with backups disabled
no .saved sibling is produced". -/
theorem fix_saved_despite_no_backup :
    (VNode.fix wCfgNB noFail ⟨["d"], ⟨true, .dir, 0o40755, 0, 0, 0⟩, true, .dir⟩
       [(["d"], ⟨.file [7], ⟨0, 0, 0o644⟩⟩)]).find (savedPath ["d"]) =
      some ⟨.file [7], ⟨0, 0, 0o644⟩⟩ := by decide

/-- C6 witness: the amended fix() contract instantiated on the concrete
file handler: the sequencing equation, the backup postcondition (the old
entry sits at `<name>.saved`), and the no-backup case producing no
`.saved` sibling. -/
theorem fix_sequence_and_backup_witness :
    (VNode.fix wCfgBk noFail wVF wW =
       VNode.set_permissions wCfgBk noFail wVF (VNode.set_owner wCfgBk noFail wVF
         (VNode.create wCfgBk noFail wVF (VNode.mkdir_basepath wCfgBk wVF
           (if wVF.fsExists then
              (if wCfgBk.backupCopies then (VNode.move_saved wCfgBk noFail wVF wW).1
               else VNode.quiet_delete wCfgBk noFail wVF wW)
            else wW))))) ∧
    (VNode.fix wCfgBk noFail wVF wW).find (savedPath wVF.name) =
      some ⟨.file [104, 105], ⟨0, 0, 0o644⟩⟩ ∧
    (VNode.fix wCfgNB noFail wVF wW).find (savedPath wVF.name) = none :=
  ⟨(fix_sequence_and_backup wCfgBk noFail wVF wW (by decide)).1,
   (fix_sequence_and_backup wCfgBk noFail wVF wW (by decide)).2.1
     ⟨.file [104, 105], ⟨0, 0, 0o644⟩⟩ rfl rfl rfl rfl rfl,
   (fix_sequence_and_backup wCfgNB noFail wVF wW (by decide)).2.2 rfl (by decide) rfl⟩

/-- C2 (amended): for a regular-file comparison with equal cached sizes:
an OPEN error on the source makes compare() return true (never touch the
destination because of an unopenable source); an open error on the
destination returns false; but a READ error — on the source just as on
the destination — makes compare() return false. -/
theorem compare_error_asymmetry (H : List Nat → List Nat) (orc : Oracle) (v : VNode)
    (spk sparg : Path) (ds : SyncStat) (w : World)
    (hk : v.kind = VKind.file spk) (hsz : v.stat.size = ds.size) :
    (orc.openFail sparg = true → (VNode.compare H orc v sparg ds w).1 = true) ∧
    (∀ c1 m1, orc.openFail sparg = false → w.find sparg = some ⟨.file c1, m1⟩ →
       orc.openFail v.name = true → (VNode.compare H orc v sparg ds w).1 = false) ∧
    (∀ c1 c2 m1 m2, orc.openFail sparg = false → w.find sparg = some ⟨.file c1, m1⟩ →
       orc.openFail v.name = false → w.find v.name = some ⟨.file c2, m2⟩ →
       orc.readFail sparg 0 = true → (VNode.compare H orc v sparg ds w).1 = false) ∧
    (∀ c1 c2 m1 m2, orc.openFail sparg = false → w.find sparg = some ⟨.file c1, m1⟩ →
       orc.openFail v.name = false → w.find v.name = some ⟨.file c2, m2⟩ →
       orc.readFail sparg 0 = false → orc.readFail v.name 0 = true →
       (VNode.compare H orc v sparg ds w).1 = false) := by
  have hcmp : VNode.compare H orc v sparg ds w = compare_checksums H orc w sparg v.name := by
    simp [VNode.compare, hk, hsz]
  refine ⟨?_, ?_, ?_, ?_⟩
  · intro hop
    have h1 : openFile orc w sparg = .error () := by simp [openFile, hop]
    rw [hcmp]
    unfold compare_checksums
    rw [h1]
  · intro c1 m1 hop1 hf1 hop2
    have h1 : openFile orc w sparg = .ok c1 := by simp [openFile, hop1, hf1]
    have h2 : openFile orc w v.name = .error () := by simp [openFile, hop2]
    rw [hcmp]
    unfold compare_checksums
    rw [h1, h2]
  · intro c1 c2 m1 m2 hop1 hf1 hop2 hf2 hrd
    have h1 : openFile orc w sparg = .ok c1 := by simp [openFile, hop1, hf1]
    have h2 : openFile orc w v.name = .ok c2 := by simp [openFile, hop2, hf2]
    rw [hcmp]
    unfold compare_checksums
    rw [h1, h2]
    simp only [checksumLoop, ne_eq, not_true_eq_false, if_neg (fun hc : ¬H [] = H [] => hc rfl),
      hrd, if_true]
    simp
  · intro c1 c2 m1 m2 hop1 hf1 hop2 hf2 hrd1 hrd2
    have h1 : openFile orc w sparg = .ok c1 := by simp [openFile, hop1, hf1]
    have h2 : openFile orc w v.name = .ok c2 := by simp [openFile, hop2, hf2]
    rw [hcmp]
    unfold compare_checksums
    rw [h1, h2]
    simp only [checksumLoop, ne_eq, not_true_eq_false, if_neg (fun hc : ¬H [] = H [] => hc rfl),
      hrd1, hrd2, Bool.false_eq_true, if_false, if_true]

/-- C2 counterexample: a read error on the SOURCE file makes compare()
return false (so the destination would be replaced), refuting the claim
that any source open-or-read error yields true. -/
theorem compare_src_read_error_counterexample :
    (VNode.compare id
      ⟨fun _ => false, fun _ => false,
       fun p i => decide (p = ["overlay", "motd"] ∧ i = 0),
       fun _ => false, fun _ => false⟩
      wVF ["overlay", "motd"] wStatF
      [(["overlay", "motd"], ⟨.file [104, 105], ⟨0, 0, 0o644⟩⟩),
       (["etc", "motd"], ⟨.file [104, 105], ⟨0, 0, 0o644⟩⟩)]).1 = false := by
  decide

/-- C2 witness: the four error cases of the amended claim, each
instantiated on a concrete oracle over the sample file pair. -/
theorem compare_error_asymmetry_witness :
    (VNode.compare id
      ⟨fun _ => false, fun p => decide (p = ["overlay", "motd"]), fun _ _ => false,
       fun _ => false, fun _ => false⟩
      wVF ["overlay", "motd"] wStatF wW).1 = true ∧
    (VNode.compare id
      ⟨fun _ => false, fun p => decide (p = ["etc", "motd"]), fun _ _ => false,
       fun _ => false, fun _ => false⟩
      wVF ["overlay", "motd"] wStatF
      [(["overlay", "motd"], ⟨.file [104, 105], ⟨0, 0, 0o644⟩⟩),
       (["etc", "motd"], ⟨.file [104, 105], ⟨0, 0, 0o644⟩⟩)]).1 = false ∧
    (VNode.compare id
      ⟨fun _ => false, fun _ => false, fun p i => decide (p = ["overlay", "motd"] ∧ i = 0),
       fun _ => false, fun _ => false⟩
      wVF ["overlay", "motd"] wStatF
      [(["overlay", "motd"], ⟨.file [106], ⟨0, 0, 0o644⟩⟩),
       (["etc", "motd"], ⟨.file [104, 105], ⟨0, 0, 0o644⟩⟩)]).1 = false ∧
    (VNode.compare id
      ⟨fun _ => false, fun _ => false, fun p i => decide (p = ["etc", "motd"] ∧ i = 0),
       fun _ => false, fun _ => false⟩
      wVF ["overlay", "motd"] wStatF
      [(["overlay", "motd"], ⟨.file [104, 105], ⟨0, 0, 0o644⟩⟩),
       (["etc", "motd"], ⟨.file [104, 105], ⟨0, 0, 0o644⟩⟩)]).1 = false :=
  ⟨(compare_error_asymmetry id _ wVF ["overlay", "motd"] ["overlay", "motd"] wStatF wW
      rfl rfl).1 (by decide),
   (compare_error_asymmetry id _ wVF ["overlay", "motd"] ["overlay", "motd"] wStatF _
      rfl rfl).2.1 [104, 105] ⟨0, 0, 0o644⟩ (by decide) rfl (by decide),
   (compare_error_asymmetry id _ wVF ["overlay", "motd"] ["overlay", "motd"] wStatF _
      rfl rfl).2.2.1 [106] [104, 105] ⟨0, 0, 0o644⟩ ⟨0, 0, 0o644⟩ (by decide) rfl
      (by decide) rfl (by decide),
   (compare_error_asymmetry id _ wVF ["overlay", "motd"] ["overlay", "motd"] wStatF _
      rfl rfl).2.2.2 [104, 105] [104, 105] ⟨0, 0, 0o644⟩ ⟨0, 0, 0o644⟩ (by decide) rfl
      (by decide) rfl (by decide) (by decide)⟩

/-- C8 (code evaluation at the failing input): when the source snapshot
says symbolic link but reading the link target fails, vnode_obj catches
the OSError and returns None — and check() then calls a method on None,
raising an AttributeError out of the core instead of the reported,
skipped step the spec promises. -/
theorem check_raises_on_failed_vnode_obj :
    SyncObject.check id wCfgBk noFail
      ⟨["overlay", "lnk"], ["etc", "lnk"], 0, ⟨true, .link, 0o120777, 0, 0, 0⟩,
       ⟨false, .unknown, 0, 0, 0, 0⟩⟩ [] =
      CheckResult.exn PyErr.attributeError [] := by decide

/-- C3: a successful check() returns (true, false) exactly when the
destination does not exist, or the source and destination file types
differ, or the handler's compare() reports not-equal; and in every such
case the returned state is that of fix() run on the handler built for
the source's type. -/
theorem check_true_false_characterization (H : List Nat → List Nat) (cfg : Config)
    (orc : Oracle) (so : SyncObject) (w : World) (u m : Bool) (w2 : World)
    (h : SyncObject.check H cfg orc so w = CheckResult.ok u m w2) :
    ((u, m) = (true, false) ↔
      (so.dest_stat.fsExists = false ∨
       so.src_stat.ftype ≠ so.dest_stat.ftype ∨
       ∃ v, so.vnode_obj orc w = .ok (some v) ∧
         (v.compare H orc so.src_path so.dest_stat w).1 = false)) ∧
    ((u, m) = (true, false) →
      ∃ v, so.vnode_obj orc w = .ok (some v) ∧ w2 = v.fix cfg orc w) := by
  unfold SyncObject.check at h
  by_cases h1 : so.dest_stat.fsExists = false
  · rw [if_pos h1] at h
    split at h
    · cases h
    · cases h
    · rename_i v hvo
      cases h
      exact ⟨⟨fun _ => Or.inl h1, fun _ => rfl⟩, fun _ => ⟨v, hvo, rfl⟩⟩
  · rw [if_neg h1] at h
    by_cases h2 : so.src_stat.ftype ≠ so.dest_stat.ftype
    · rw [if_pos h2] at h
      split at h
      · cases h
      · cases h
      · rename_i v hvo
        cases h
        exact ⟨⟨fun _ => Or.inr (Or.inl h2), fun _ => rfl⟩, fun _ => ⟨v, hvo, rfl⟩⟩
    · rw [if_neg h2] at h
      split at h
      · cases h
      · cases h
      · rename_i v hvo
        split at h
        · rename_i h3
          cases h
          exact ⟨⟨fun _ => Or.inr (Or.inr ⟨v, hvo, h3⟩), fun _ => rfl⟩,
                 fun _ => ⟨v, hvo, rfl⟩⟩
        · rename_i h3
          cases h
          constructor
          · constructor
            · intro hc; simp at hc
            · intro hr
              exfalso
              rcases hr with hr | hr | ⟨v2, hv2, hcmp⟩
              · exact h1 hr
              · exact h2 hr
              · rw [hvo] at hv2
                cases hv2
                exact h3 hcmp
          · intro hc; simp at hc

/-- C3 witness: the characterization instantiated on a concrete pair
whose destination does not exist. -/
theorem check_true_false_characterization_witness :
    (((true, false) : Bool × Bool) = (true, false) ↔
      (wSOm.dest_stat.fsExists = false ∨
       wSOm.src_stat.ftype ≠ wSOm.dest_stat.ftype ∨
       ∃ v, wSOm.vnode_obj noFail wWsrc = .ok (some v) ∧
         (v.compare id noFail wSOm.src_path wSOm.dest_stat wWsrc).1 = false)) ∧
    (((true, false) : Bool × Bool) = (true, false) →
      ∃ v, wSOm.vnode_obj noFail wWsrc = .ok (some v) ∧
        VNode.fix wCfgBk noFail
            ⟨["etc", "motd"], wStatF, false, .file ["overlay", "motd"]⟩ wWsrc =
          v.fix wCfgBk noFail wWsrc) :=
  check_true_false_characterization id wCfgBk noFail wSOm wWsrc true false
    (VNode.fix wCfgBk noFail
      ⟨["etc", "motd"], wStatF, false, .file ["overlay", "motd"]⟩ wWsrc)
    (by decide)

/-- C4: when types match and content compares equal, check() tests owner
(uid+gid) and mode independently against the snapshots: set_owner runs
iff the owner differs, set_permissions runs iff the mode differs (a
mismatch in one does not prevent testing and correcting the other), and
check returns (false, m) with m true iff at least one facet mismatched. -/
theorem check_meta_independent (H : List Nat → List Nat) (cfg : Config) (orc : Oracle)
    (so : SyncObject) (w : World) (v : VNode)
    (hex : so.dest_stat.fsExists = true)
    (hty : so.src_stat.ftype = so.dest_stat.ftype)
    (hvo : so.vnode_obj orc w = .ok (some v))
    (hcmp : (v.compare H orc so.src_path so.dest_stat w).1 = true) :
    SyncObject.check H cfg orc so w =
      CheckResult.ok false
        (decide (so.src_stat.uid ≠ so.dest_stat.uid ∨ so.src_stat.gid ≠ so.dest_stat.gid) ||
         decide (so.src_stat.mode ≠ so.dest_stat.mode))
        (if so.src_stat.mode ≠ so.dest_stat.mode then
           VNode.set_permissions cfg orc v
             (if so.src_stat.uid ≠ so.dest_stat.uid ∨ so.src_stat.gid ≠ so.dest_stat.gid then
                VNode.set_owner cfg orc v w
              else w)
         else
           (if so.src_stat.uid ≠ so.dest_stat.uid ∨ so.src_stat.gid ≠ so.dest_stat.gid then
              VNode.set_owner cfg orc v w
            else w)) := by
  unfold SyncObject.check
  rw [if_neg (by simp [hex]), if_neg (by simp [hty]), hvo]
  dsimp only
  rw [if_neg (by simp [hcmp])]

/-- C4 witness: a concrete pair with identical content and mode but
drifted owner: check returns (false, true) and the returned state is the
one set_owner alone produces. -/
theorem check_meta_independent_witness :
    SyncObject.check id wCfgBk noFail wSO4 wW4 =
      CheckResult.ok false
        (decide (wStatF.uid ≠ wStatD.uid ∨ wStatF.gid ≠ wStatD.gid) ||
         decide (wStatF.mode ≠ wStatD.mode))
        (if wStatF.mode ≠ wStatD.mode then
           VNode.set_permissions wCfgBk noFail wV4
             (if wStatF.uid ≠ wStatD.uid ∨ wStatF.gid ≠ wStatD.gid then
                VNode.set_owner wCfgBk noFail wV4 wW4
              else wW4)
         else
           (if wStatF.uid ≠ wStatD.uid ∨ wStatF.gid ≠ wStatD.gid then
              VNode.set_owner wCfgBk noFail wV4 wW4
            else wW4)) :=
  check_meta_independent id wCfgBk noFail wSO4 wW4 wV4 (by decide) (by decide)
    rfl (by decide)

/-! ### The checksum while-loop -/

theorem checksumLoop_ended (H : List Nat → List Nat) (orc : Oracle) (sp dp : Path) :
    ∀ (fuel : Nat) (r1 r2 a1 a2 : List Nat) (idx : Nat),
      checksumLoop H orc sp dp fuel true r1 r2 a1 a2 idx = (decide (H a1 = H a2), []) := by
  intro fuel r1 r2 a1 a2 idx
  cases fuel <;> rfl

theorem take_io_size_cons (b : Nat) (t : List Nat) :
    List.take IO_SIZE (b :: t) = b :: List.take (IO_SIZE - 1) t := by
  rw [show IO_SIZE = 16383 + 1 from rfl]
  simp

theorem checksumLoop_refl (H : List Nat → List Nat) (sp dp : Path) :
    ∀ (fuel : Nat) (c a : List Nat) (idx : Nat),
      (checksumLoop H noFail sp dp fuel false c c a a idx).1 = true := by
  intro fuel
  induction fuel with
  | zero => intro c a idx; simp [checksumLoop]
  | succ n ih =>
    intro c a idx
    rw [checksumLoop, if_neg (fun hc : ¬H a = H a => hc rfl)]
    simp only [noFail, Bool.false_eq_true, if_false]
    by_cases hc : c = []
    · subst hc
      simp [checksumLoop_ended]
    · have htk : (List.take IO_SIZE c).isEmpty = false := by
        cases c with
        | nil => exact absurd rfl hc
        | cons b t => rw [take_io_size_cons]; simp
      simp only [htk, Bool.or_self]
      simpa using ih (c.drop IO_SIZE) (a ++ c.take IO_SIZE) (idx + 1)

theorem checksumLoop_eq_iff (H : List Nat → List Nat) (hH : Function.Injective H)
    (sp dp : Path) :
    ∀ (fuel : Nat) (r1 r2 a1 a2 : List Nat) (idx : Nat),
      r1.length + r2.length + 1 ≤ fuel →
      alignedAcc a1 a2 r1 r2 →
      ((checksumLoop H noFail sp dp fuel false r1 r2 a1 a2 idx).1 = true ↔
        a1 ++ r1 = a2 ++ r2) := by
  intro fuel
  induction fuel with
  | zero => intro r1 r2 a1 a2 idx hf _; omega
  | succ n ih =>
    intro r1 r2 a1 a2 idx hf hal
    by_cases hg : H a1 = H a2
    · have ha : a1 = a2 := hH hg
      subst ha
      rw [checksumLoop, if_neg (fun hc : ¬H a1 = H a1 => hc rfl)]
      simp only [noFail, Bool.false_eq_true, if_false]
      cases hr1 : r1 with
      | nil =>
        cases hr2 : r2 with
        | nil => simp [checksumLoop_ended]
        | cons b2 t2 =>
          rw [take_io_size_cons]
          simp only [List.take_nil, List.isEmpty_nil, Bool.true_or]
          rw [checksumLoop_ended]
          simp only [decide_eq_true_eq, List.append_nil]
          constructor
          · intro hd
            have := congrArg List.length (hH hd)
            simp at this
          · intro hd
            have := congrArg List.length hd
            simp at this
      | cons b1 t1 =>
        cases hr2 : r2 with
        | nil =>
          rw [take_io_size_cons]
          simp only [List.take_nil, List.isEmpty_nil, List.isEmpty_cons, Bool.or_true]
          rw [checksumLoop_ended]
          simp only [decide_eq_true_eq, List.append_nil]
          constructor
          · intro hd
            have := congrArg List.length (hH hd)
            simp at this
          · intro hd
            have := congrArg List.length hd
            simp at this
        | cons b2 t2 =>
          rw [take_io_size_cons, take_io_size_cons]
          simp only [List.isEmpty_cons, Bool.or_self, Bool.false_or]
          rw [← take_io_size_cons, ← take_io_size_cons]
          have hlen1 : (b1 :: t1).length = t1.length + 1 := by simp
          have hlen2 : (b2 :: t2).length = t2.length + 1 := by simp
          have hfuel2 : (List.drop IO_SIZE (b1 :: t1)).length +
              (List.drop IO_SIZE (b2 :: t2)).length + 1 ≤ n := by
            rw [List.length_drop, List.length_drop]
            rw [hr1, hr2, hlen1, hlen2] at hf
            have hio : 1 ≤ IO_SIZE := by norm_num [IO_SIZE]
            omega
          have haligned : alignedAcc (a1 ++ List.take IO_SIZE (b1 :: t1))
              (a1 ++ List.take IO_SIZE (b2 :: t2))
              (List.drop IO_SIZE (b1 :: t1)) (List.drop IO_SIZE (b2 :: t2)) := by
            have hl1 := List.length_take IO_SIZE (b1 :: t1)
            have hl2 := List.length_take IO_SIZE (b2 :: t2)
            rcases Nat.lt_trichotomy (List.take IO_SIZE (b1 :: t1)).length
                (List.take IO_SIZE (b2 :: t2)).length with hlt | heq | hgt
            · refine Or.inr (Or.inl ⟨by simp only [List.length_append]; omega, ?_⟩)
              refine List.eq_nil_of_length_eq_zero ?_
              rw [List.length_drop]
              omega
            · exact Or.inl (by simp only [List.length_append]; omega)
            · refine Or.inr (Or.inr ⟨by simp only [List.length_append]; omega, ?_⟩)
              refine List.eq_nil_of_length_eq_zero ?_
              rw [List.length_drop]
              omega
          have hih := ih (List.drop IO_SIZE (b1 :: t1)) (List.drop IO_SIZE (b2 :: t2))
            (a1 ++ List.take IO_SIZE (b1 :: t1)) (a1 ++ List.take IO_SIZE (b2 :: t2))
            (idx + 1) hfuel2 haligned
          simp only [List.append_assoc, List.take_append_drop] at hih
          simpa using hih
    · rw [checksumLoop, if_pos (fun hc : H a1 = H a2 => hg hc)]
      simp only [decide_eq_true_eq]
      constructor
      · intro hd; exact absurd hd hg
      · intro hr
        exfalso
        rcases hal with hlen | ⟨hlt, hnil⟩ | ⟨hlt, hnil⟩
        · exact hg (congrArg H (List.append_inj hr hlen).1)
        · subst hnil
          have := congrArg List.length hr
          simp [List.length_append] at this
          have ha12 : a1 = a2 := by
            have : r2 = [] := by
              refine List.eq_nil_of_length_eq_zero ?_
              omega
            subst this
            simpa using hr
          exact absurd (congrArg List.length ha12) (by omega)
        · subst hnil
          have := congrArg List.length hr
          simp [List.length_append] at this
          have ha12 : a1 = a2 := by
            have : r1 = [] := by
              refine List.eq_nil_of_length_eq_zero ?_
              omega
            subst this
            simpa using hr
          exact absurd (congrArg List.length ha12) (by omega)

/-- C5: for a regular-file comparison, a cached-size mismatch makes
compare() return false without opening or reading either file (empty
I/O trace); with equal cached sizes and no I/O error, compare() returns
true iff the digest of the source's full content equals the digest of
the destination's full content, for every collision-free digest
function. -/
theorem compare_size_and_checksum (H : List Nat → List Nat)
    (hH : Function.Injective H) (v : VNode) (spk sparg : Path) (ds : SyncStat)
    (w : World) (hk : v.kind = VKind.file spk) :
    (∀ orc : Oracle, v.stat.size ≠ ds.size →
       VNode.compare H orc v sparg ds w = (false, [])) ∧
    (∀ c1 c2 m1 m2, v.stat.size = ds.size →
       w.find sparg = some ⟨.file c1, m1⟩ → w.find v.name = some ⟨.file c2, m2⟩ →
       ((VNode.compare H noFail v sparg ds w).1 = true ↔ H c1 = H c2)) := by
  constructor
  · intro orc hsz
    simp [VNode.compare, hk, hsz]
  · intro c1 c2 m1 m2 hsz hf1 hf2
    have h1 : openFile noFail w sparg = .ok c1 := by simp [openFile, noFail, hf1]
    have h2 : openFile noFail w v.name = .ok c2 := by simp [openFile, noFail, hf2]
    have hcmp : VNode.compare H noFail v sparg ds w =
        compare_checksums H noFail w sparg v.name := by
      simp [VNode.compare, hk, hsz]
    rw [hcmp]
    unfold compare_checksums
    rw [h1, h2]
    have hloop := checksumLoop_eq_iff H hH sparg v.name
      (c1.length + c2.length + 1) c1 c2 [] [] 0 (by omega) (Or.inl rfl)
    simp only [List.nil_append] at hloop
    have hiff : c1 = c2 ↔ H c1 = H c2 := ⟨congrArg H, fun he => hH he⟩
    simpa using hloop.trans hiff

/-- C5 witness: the size short-circuit (false with empty I/O trace) and
the digest characterization, instantiated on concrete files with the
identity digest. -/
theorem compare_size_and_checksum_witness :
    (VNode.compare id noFail wVF ["overlay", "motd"] ⟨true, .file, 0o100644, 0, 0, 7⟩
       wW4 = (false, [])) ∧
    ((VNode.compare id noFail wVF ["overlay", "motd"] wStatD wW4).1 = true ↔
      id [104, 105] = id [104, 105]) :=
  ⟨(compare_size_and_checksum id (fun _ _ h => h) wVF ["overlay", "motd"]
      ["overlay", "motd"] ⟨true, .file, 0o100644, 0, 0, 7⟩ wW4 rfl).1 noFail (by decide),
   (compare_size_and_checksum id (fun _ _ h => h) wVF ["overlay", "motd"]
      ["overlay", "motd"] wStatD wW4 rfl).2 [104, 105] [104, 105]
      ⟨0, 0, 0o644⟩ ⟨500, 0, 0o644⟩ (by decide) rfl rfl⟩

/-! ### Snapshot and handler-construction lemmas -/

theorem statOf_fsExists (w : World) (p : Path) :
    (statOf w p).fsExists = (w.find p).isSome := by
  unfold statOf
  cases w.find p <;> rfl

theorem statOf_some (w : World) (p : Path) (se : DEntry) (h : w.find p = some se) :
    statOf w p = ⟨true, se.data.ftype, typeBits se.data.ftype + (se.meta.mode &&& 0o7777),
      se.meta.uid, se.meta.gid, se.data.size⟩ := by
  simp [statOf, h]

theorem contentMatches_refl (d : EntryData) : contentMatches d d := by
  cases d <;> simp [contentMatches]

theorem vnode_obj_of_statOf (orc : Oracle) (so : SyncObject) (w : World) (se : DEntry)
    (hro : orc.readlinkFail so.src_path = false)
    (hso : orc.statFail so.src_path = false)
    (hfs : w.find so.src_path = some se)
    (hft : so.src_stat.ftype = se.data.ftype) :
    so.vnode_obj orc w =
      .ok (some ⟨so.dest_path, so.src_stat, so.dest_stat.fsExists, kindOf se so.src_path⟩) := by
  unfold SyncObject.vnode_obj
  cases hd : se.data with
  | file c =>
    rw [hd] at hft
    simp [SyncStat.is_file, hft, EntryData.ftype, kindOf, hd]
  | dir =>
    rw [hd] at hft
    simp [SyncStat.is_file, SyncStat.is_dir, hft, EntryData.ftype, kindOf, hd]
  | symlink t =>
    rw [hd] at hft
    simp [SyncStat.is_file, SyncStat.is_dir, SyncStat.is_link, hft, EntryData.ftype,
      kindOf, hd, os_readlink, hro, hfs]
  | fifo =>
    rw [hd] at hft
    simp [SyncStat.is_file, SyncStat.is_dir, SyncStat.is_link, SyncStat.is_fifo, hft,
      EntryData.ftype, kindOf, hd]
  | chardev a b =>
    rw [hd] at hft
    simp [SyncStat.is_file, SyncStat.is_dir, SyncStat.is_link, SyncStat.is_fifo,
      SyncStat.is_chardev, hft, EntryData.ftype, kindOf, hd, os_stat, os_lstat, hso, hfs]
  | blkdev a b =>
    rw [hd] at hft
    simp [SyncStat.is_file, SyncStat.is_dir, SyncStat.is_link, SyncStat.is_fifo,
      SyncStat.is_chardev, SyncStat.is_blockdev, hft, EntryData.ftype, kindOf, hd,
      os_stat, os_lstat, hso, hfs]

theorem vnode_obj_unknown (orc : Oracle) (so : SyncObject) (w : World)
    (h : so.src_stat.ftype = FType.unknown) :
    so.vnode_obj orc w = .ok none := by
  unfold SyncObject.vnode_obj
  simp [SyncStat.is_file, SyncStat.is_dir, SyncStat.is_link, SyncStat.is_fifo,
    SyncStat.is_chardev, SyncStat.is_blockdev, h]

theorem check_none_exn (H : List Nat → List Nat) (cfg : Config) (orc : Oracle)
    (so : SyncObject) (w : World) (hvo : so.vnode_obj orc w = .ok none) :
    SyncObject.check H cfg orc so w = .exn .attributeError w := by
  unfold SyncObject.check
  by_cases h1 : so.dest_stat.fsExists = false
  · rw [if_pos h1, hvo]
  · rw [if_neg h1]
    by_cases h2 : so.src_stat.ftype ≠ so.dest_stat.ftype
    · rw [if_pos h2, hvo]
    · rw [if_neg h2, hvo]

/-! ### Convergence of fix(): removal, creation and metadata phases -/

theorem fix_phase1_removed (cfg : Config) (v : VNode) (w : World) (sp : Path) (se : DEntry)
    (hdry : cfg.dryRun = false)
    (hne : v.name ≠ [])
    (hp1 : pathLE v.name sp = false)
    (hp2 : pathLE (savedPath v.name) sp = false)
    (hsrc : w.find sp = some se)
    (hsaved : w.find (savedPath v.name) = none)
    (hex : v.fsExists = true → (w.find v.name).isSome = true)
    (hnx : v.fsExists = false → w.find v.name = none)
    (hdel : cfg.backupCopies = true ∨ v.kind = VKind.dir ∨
       (∀ e, w.find v.name = some e → e.data.isDir = false)) :
    (if v.fsExists then
        (if cfg.backupCopies then (VNode.move_saved cfg noFail v w).1
         else VNode.quiet_delete cfg noFail v w)
      else w).find v.name = none ∧
    (if v.fsExists then
        (if cfg.backupCopies then (VNode.move_saved cfg noFail v w).1
         else VNode.quiet_delete cfg noFail v w)
      else w).find sp = some se := by
  have hps := pathLE_of_saved v.name hne
  have hsp_ne_dp : sp ≠ v.name := by
    intro hc
    rw [hc] at hp1
    exact absurd (pathLE_refl v.name) (by simp [hp1])
  by_cases hfx : v.fsExists = true
  · rw [hfx]
    simp only [if_true]
    obtain ⟨de, hde⟩ := Option.isSome_iff_exists.mp (hex hfx)
    have hrn : os_rename noFail w v.name (savedPath v.name) =
        .ok (w.renameTree v.name (savedPath v.name)) := by
      unfold os_rename
      simp [noFail, hde, hsaved]
    have hmv : (VNode.move_saved cfg noFail v w).1 =
        w.renameTree v.name (savedPath v.name) := by
      simp [VNode.move_saved, hdry, hrn]
    have hmv_goal : (w.renameTree v.name (savedPath v.name)).find v.name = none ∧
        (w.renameTree v.name (savedPath v.name)).find sp = some se :=
      ⟨find_renameTree_src w hps, by rw [find_renameTree_other w hp1 hp2]; exact hsrc⟩
    have herase_goal : (w.erase v.name).find v.name = none ∧
        (w.erase v.name).find sp = some se :=
      ⟨World.find_erase_self w v.name,
       by rw [World.find_erase_ne w hsp_ne_dp]; exact hsrc⟩
    by_cases hbk : cfg.backupCopies = true
    · rw [hbk]
      simp only [if_true]
      rw [hmv]
      exact hmv_goal
    · have hbk2 : cfg.backupCopies = false := by simpa using hbk
      rw [hbk2]
      simp only [Bool.false_eq_true, if_false]
      have hdircase : v.kind = VKind.dir →
          (VNode.quiet_delete cfg noFail v w).find v.name = none ∧
          (VNode.quiet_delete cfg noFail v w).find sp = some se := by
        intro hkd
        simp only [VNode.quiet_delete, hkd]
        rw [if_pos ⟨hdry, hbk2⟩]
        cases hrm : os_rmdir noFail w v.name with
        | ok w2 =>
          rw [os_rmdir_ok hrm]
          exact herase_goal
        | error u =>
          rw [hmv]
          exact hmv_goal
      rcases hdel with h | h | h
      · rw [h] at hbk2; cases hbk2
      · exact hdircase h
      · have hul : os_unlink noFail w v.name = .ok (w.erase v.name) := by
          simp [os_unlink, noFail, hde, h de hde]
        cases hkk : v.kind with
        | dir => exact hdircase hkk
        | file s2 =>
          simp only [VNode.quiet_delete, hkk]
          rw [if_pos ⟨hdry, hbk2⟩, hul]
          exact herase_goal
        | link t =>
          simp only [VNode.quiet_delete, hkk]
          rw [if_pos ⟨hdry, hbk2⟩, hul]
          exact herase_goal
        | fifo =>
          simp only [VNode.quiet_delete, hkk]
          rw [if_pos ⟨hdry, hbk2⟩, hul]
          exact herase_goal
        | chardev st =>
          simp only [VNode.quiet_delete, hkk]
          rw [if_pos ⟨hdry, hbk2⟩, hul]
          exact herase_goal
        | blkdev st =>
          simp only [VNode.quiet_delete, hkk]
          rw [if_pos ⟨hdry, hbk2⟩, hul]
          exact herase_goal
  · have hfx2 : v.fsExists = false := by simpa using hfx
    rw [hfx2]
    simp only [Bool.false_eq_true, if_false]
    exact ⟨hnx hfx2, hsrc⟩

theorem create_converged (cfg : Config) (v : VNode) (w : World) (sp : Path) (se : DEntry)
    (hdry : cfg.dryRun = false)
    (hkind : v.kind = kindOf se sp)
    (hnone : w.find v.name = none)
    (hsrc : w.find sp = some se) :
    (∃ mC : Meta, (VNode.create cfg noFail v w).find v.name = some ⟨se.data, mC⟩) ∧
    (∀ q, q ≠ v.name → (VNode.create cfg noFail v w).find q = w.find q) := by
  cases hd : se.data with
  | file c =>
    have hk2 : v.kind = VKind.file sp := by rw [hkind, kindOf, hd]
    have hct : copyTarget w sp v.name = v.name := by simp [copyTarget, hnone]
    have hcm : copyMeta w v.name se.meta.mode = ⟨0, 0, se.meta.mode⟩ := by
      simp [copyMeta, hnone]
    have hcp : shutil_copy noFail w sp v.name =
        .ok (w.set v.name ⟨.file c, ⟨0, 0, se.meta.mode⟩⟩) := by
      unfold shutil_copy
      simp [noFail, hsrc, hd, hct, hcm]
    simp only [VNode.create, hk2, hdry, Bool.false_eq_true, if_false, hcp]
    exact ⟨⟨⟨0, 0, se.meta.mode⟩, World.find_set_self w v.name _⟩,
           fun q hq => World.find_set_ne w _ hq⟩
  | dir =>
    have hk2 : v.kind = VKind.dir := by rw [hkind, kindOf, hd]
    have hmk : os_mkdir noFail w v.name (v.stat.mode &&& 0o7777) =
        .ok (w.set v.name ⟨.dir, ⟨0, 0, v.stat.mode &&& 0o7777⟩⟩) := by
      simp [os_mkdir, noFail, hnone]
    simp only [VNode.create, hk2, hnone, Option.isSome_none, Bool.false_eq_true, if_false,
      hdry, hmk]
    exact ⟨⟨⟨0, 0, v.stat.mode &&& 0o7777⟩, World.find_set_self w v.name _⟩,
           fun q hq => World.find_set_ne w _ hq⟩
  | symlink t =>
    have hk2 : v.kind = VKind.link t := by rw [hkind, kindOf, hd]
    have hmk : os_symlink noFail w t v.name =
        .ok (w.set v.name ⟨.symlink t, ⟨0, 0, 0o777⟩⟩) := by
      simp [os_symlink, noFail, hnone]
    simp only [VNode.create, hk2, hdry, Bool.false_eq_true, if_false, hmk]
    exact ⟨⟨⟨0, 0, 0o777⟩, World.find_set_self w v.name _⟩,
           fun q hq => World.find_set_ne w _ hq⟩
  | fifo =>
    have hk2 : v.kind = VKind.fifo := by rw [hkind, kindOf, hd]
    have hmk : os_mkfifo noFail w v.name (v.stat.mode &&& 0o777) =
        .ok (w.set v.name ⟨.fifo, ⟨0, 0, v.stat.mode &&& 0o777⟩⟩) := by
      simp [os_mkfifo, noFail, hnone]
    simp only [VNode.create, hk2, hdry, Bool.false_eq_true, if_false, hmk]
    exact ⟨⟨⟨0, 0, v.stat.mode &&& 0o777⟩, World.find_set_self w v.name _⟩,
           fun q hq => World.find_set_ne w _ hq⟩
  | chardev a b =>
    have hk2 : v.kind = VKind.chardev (rawStatOf se) := by rw [hkind, kindOf, hd]
    have hraw : (rawStatOf se).st_rdev_major = a ∧ (rawStatOf se).st_rdev_minor = b := by
      simp [rawStatOf, hd, EntryData.rdevMajor, EntryData.rdevMinor]
    have hmk : os_mknod noFail w v.name
        (.chardev (rawStatOf se).st_rdev_major (rawStatOf se).st_rdev_minor)
        ((rawStatOf se).st_mode &&& 0o777) =
        .ok (w.set v.name ⟨.chardev a b, ⟨0, 0, (rawStatOf se).st_mode &&& 0o777⟩⟩) := by
      simp [os_mknod, noFail, hnone, hraw.1, hraw.2]
    simp only [VNode.create, hk2, hdry, Bool.false_eq_true, if_false, hmk]
    exact ⟨⟨⟨0, 0, (rawStatOf se).st_mode &&& 0o777⟩, World.find_set_self w v.name _⟩,
           fun q hq => World.find_set_ne w _ hq⟩
  | blkdev a b =>
    have hk2 : v.kind = VKind.blkdev (rawStatOf se) := by rw [hkind, kindOf, hd]
    have hraw : (rawStatOf se).st_rdev_major = a ∧ (rawStatOf se).st_rdev_minor = b := by
      simp [rawStatOf, hd, EntryData.rdevMajor, EntryData.rdevMinor]
    have hmk : os_mknod noFail w v.name
        (.blkdev (rawStatOf se).st_rdev_major (rawStatOf se).st_rdev_minor)
        ((rawStatOf se).st_mode &&& 0o777) =
        .ok (w.set v.name ⟨.blkdev a b, ⟨0, 0, (rawStatOf se).st_mode &&& 0o777⟩⟩) := by
      simp [os_mknod, noFail, hnone, hraw.1, hraw.2]
    simp only [VNode.create, hk2, hdry, Bool.false_eq_true, if_false, hmk]
    exact ⟨⟨⟨0, 0, (rawStatOf se).st_mode &&& 0o777⟩, World.find_set_self w v.name _⟩,
           fun q hq => World.find_set_ne w _ hq⟩

theorem set_owner_state (cfg : Config) (v : VNode) (w : World) (d : EntryData) (mC : Meta)
    (hdry : cfg.dryRun = false) (hlo : cfg.hasLchown = true)
    (hfind : w.find v.name = some ⟨d, mC⟩) :
    VNode.set_owner cfg noFail v w =
      w.set v.name ⟨d, ⟨v.stat.uid, v.stat.gid, mC.mode⟩⟩ := by
  have hco : os_chown noFail w v.name v.stat.uid v.stat.gid =
      .ok (w.set v.name ⟨d, ⟨v.stat.uid, v.stat.gid, mC.mode⟩⟩) := by
    simp [os_chown, noFail, hfind]
  cases hk : v.kind <;> simp [VNode.set_owner, hk, hdry, hlo, hco]

theorem set_permissions_state (cfg : Config) (v : VNode) (w : World) (d : EntryData) (mC : Meta)
    (hdry : cfg.dryRun = false) (hlm : cfg.hasLchmod = true)
    (hfind : w.find v.name = some ⟨d, mC⟩) :
    VNode.set_permissions cfg noFail v w =
      w.set v.name ⟨d, ⟨mC.uid, mC.gid, v.stat.mode &&& 0o7777⟩⟩ := by
  have hcm : os_chmod noFail w v.name (v.stat.mode &&& 0o7777) =
      .ok (w.set v.name ⟨d, ⟨mC.uid, mC.gid, v.stat.mode &&& 0o7777⟩⟩) := by
    simp [os_chmod, noFail, hfind]
  cases hk : v.kind <;> simp [VNode.set_permissions, hk, hdry, hlm, hcm]

theorem owner_perms_converged (cfg : Config) (v : VNode) (w : World) (d : EntryData) (mC : Meta)
    (hdry : cfg.dryRun = false) (hlo : cfg.hasLchown = true) (hlm : cfg.hasLchmod = true)
    (hfind : w.find v.name = some ⟨d, mC⟩) :
    (VNode.set_permissions cfg noFail v (VNode.set_owner cfg noFail v w)).find v.name =
      some ⟨d, ⟨v.stat.uid, v.stat.gid, v.stat.mode &&& 0o7777⟩⟩ ∧
    (∀ q, q ≠ v.name →
      (VNode.set_permissions cfg noFail v (VNode.set_owner cfg noFail v w)).find q =
        w.find q) := by
  rw [set_owner_state cfg v w d mC hdry hlo hfind]
  have hfind4 : (w.set v.name ⟨d, ⟨v.stat.uid, v.stat.gid, mC.mode⟩⟩).find v.name =
      some ⟨d, ⟨v.stat.uid, v.stat.gid, mC.mode⟩⟩ := World.find_set_self w v.name _
  rw [set_permissions_state cfg v _ d ⟨v.stat.uid, v.stat.gid, mC.mode⟩ hdry hlm hfind4]
  constructor
  · exact World.find_set_self _ v.name _
  · intro q hq
    rw [World.find_set_ne _ _ hq, World.find_set_ne w _ hq]

theorem find_mkdir_basepath_isSome (cfg : Config) (v : VNode) (w : World) (q : Path)
    (h : (w.find q).isSome = true) :
    (VNode.mkdir_basepath cfg v w).find q = w.find q := by
  unfold VNode.mkdir_basepath
  split
  · rfl
  · exact find_mkdir_p_isSome _ w q h

theorem kindOf_dir_of_isDir (se : DEntry) (sp : Path) (h : se.data.isDir = true) :
    kindOf se sp = VKind.dir := by
  cases hd : se.data <;> rw [hd] at h <;> simp [EntryData.isDir] at h <;> simp [kindOf, hd]

theorem fix_converged (cfg : Config) (so : SyncObject) (w : World) (se : DEntry)
    (hdry : cfg.dryRun = false) (hlo : cfg.hasLchown = true) (hlm : cfg.hasLchmod = true)
    (hsrc : w.find so.src_path = some se)
    (hdst : so.dest_stat = statOf w so.dest_path)
    (hne : so.dest_path ≠ [])
    (hp1 : pathLE so.dest_path so.src_path = false)
    (hp2 : pathLE (savedPath so.dest_path) so.src_path = false)
    (hsaved : w.find (savedPath so.dest_path) = none)
    (hdel : cfg.backupCopies = true ∨ se.data.isDir = true ∨
       (∀ e, w.find so.dest_path = some e → e.data.isDir = false)) :
    (VNode.fix cfg noFail
        ⟨so.dest_path, so.src_stat, so.dest_stat.fsExists, kindOf se so.src_path⟩ w).find
        so.dest_path =
      some ⟨se.data, ⟨so.src_stat.uid, so.src_stat.gid, so.src_stat.mode &&& 0o7777⟩⟩ ∧
    (VNode.fix cfg noFail
        ⟨so.dest_path, so.src_stat, so.dest_stat.fsExists, kindOf se so.src_path⟩ w).find
        so.src_path = some se := by
  set v : VNode := ⟨so.dest_path, so.src_stat, so.dest_stat.fsExists, kindOf se so.src_path⟩
    with hv
  have hsp_ne : so.src_path ≠ so.dest_path := by
    intro hc
    rw [hc] at hp1
    exact absurd (pathLE_refl so.dest_path) (by simp [hp1])
  have hph1 := fix_phase1_removed cfg v w so.src_path se hdry hne hp1 hp2 hsrc hsaved
    (fun h => by
      rw [hv] at h
      simp only at h
      rw [hdst, statOf_fsExists] at h
      exact h)
    (fun h => by
      rw [hv] at h
      simp only at h
      rw [hdst, statOf_fsExists] at h
      cases hfe : w.find so.dest_path
      · rfl
      · rw [hfe] at h; cases h)
    (by
      rcases hdel with h | h | h
      · exact Or.inl h
      · exact Or.inr (Or.inl (kindOf_dir_of_isDir se so.src_path h))
      · exact Or.inr (Or.inr h))
  set wA : World := (if v.fsExists then
      (if cfg.backupCopies then (VNode.move_saved cfg noFail v w).1
       else VNode.quiet_delete cfg noFail v w)
    else w) with hwA
  have hB1 : (VNode.mkdir_basepath cfg v wA).find so.dest_path = none := by
    rw [find_mkdir_basepath_preserved cfg v wA so.dest_path (Nat.le_refl _)]
    exact hph1.1
  have hB2 : (VNode.mkdir_basepath cfg v wA).find so.src_path = some se := by
    rw [find_mkdir_basepath_isSome cfg v wA so.src_path (by rw [hph1.2]; rfl)]
    exact hph1.2
  set wB : World := VNode.mkdir_basepath cfg v wA with hwB
  have hph3 := create_converged cfg v wB so.src_path se hdry rfl hB1 hB2
  obtain ⟨⟨mC, hC1⟩, hC2⟩ := hph3
  have hC_sp : (VNode.create cfg noFail v wB).find so.src_path = some se := by
    rw [hC2 so.src_path hsp_ne]
    exact hB2
  set wC : World := VNode.create cfg noFail v wB with hwC
  have hph4 := owner_perms_converged cfg v wC se.data mC hdry hlo hlm hC1
  have hfix : VNode.fix cfg noFail v w =
      VNode.set_permissions cfg noFail v (VNode.set_owner cfg noFail v wC) := rfl
  rw [hfix]
  refine ⟨hph4.1, ?_⟩
  rw [hph4.2 so.src_path hsp_ne]
  exact hC_sp

theorem check_converged_state (H : List Nat → List Nat) (cfg : Config) (so : SyncObject)
    (w1 : World) (se e : DEntry)
    (hsrc : w1.find so.src_path = some se)
    (hst : so.src_stat = statOf w1 so.src_path)
    (hdst : so.dest_stat = statOf w1 so.dest_path)
    (hfd : w1.find so.dest_path = some e)
    (hcm : contentMatches se.data e.data)
    (huid : e.meta.uid = se.meta.uid)
    (hgid : e.meta.gid = se.meta.gid)
    (hmode : e.meta.mode &&& 0o7777 = se.meta.mode &&& 0o7777) :
    SyncObject.check H cfg noFail so w1 = .ok false false w1 := by
  have hty : e.data.ftype = se.data.ftype := by
    cases hd : se.data <;> cases he : e.data <;>
      rw [hd, he] at hcm <;> simp [contentMatches] at hcm <;> rfl
  have hstS := statOf_some w1 so.src_path se hsrc
  have hdstS := statOf_some w1 so.dest_path e hfd
  have hft : so.src_stat.ftype = se.data.ftype := by rw [hst, hstS]
  have hex : so.dest_stat.fsExists = true := by rw [hdst, hdstS]
  have hdft : so.dest_stat.ftype = e.data.ftype := by rw [hdst, hdstS]
  have hvo := vnode_obj_of_statOf noFail so w1 se rfl rfl hsrc hft
  have hcmp : (VNode.compare H noFail
      ⟨so.dest_path, so.src_stat, so.dest_stat.fsExists, kindOf se so.src_path⟩
      so.src_path so.dest_stat w1).1 = true := by
    cases hd : se.data with
    | file c =>
      rw [hd] at hcm
      cases he : e.data with
      | file c2 =>
        rw [he] at hcm
        simp only [contentMatches] at hcm
        subst hcm
        have hksz : so.src_stat.size = so.dest_stat.size := by
          rw [hst, hstS, hdst, hdstS, hd, he]
        have h1 : openFile noFail w1 so.src_path = .ok c := by
          simp [openFile, noFail, hsrc, hd]
        have h2 : openFile noFail w1 so.dest_path = .ok c := by
          simp [openFile, noFail, hfd, he]
        simp only [VNode.compare, kindOf, hd]
        rw [if_neg (by simp [hksz])]
        unfold compare_checksums
        rw [h1, h2]
        simpa using checksumLoop_refl H so.src_path so.dest_path
          (c.length + c.length + 1) c [] 0
      | dir => rw [he] at hcm; simp [contentMatches] at hcm
      | symlink t2 => rw [he] at hcm; simp [contentMatches] at hcm
      | fifo => rw [he] at hcm; simp [contentMatches] at hcm
      | chardev a2 b2 => rw [he] at hcm; simp [contentMatches] at hcm
      | blkdev a2 b2 => rw [he] at hcm; simp [contentMatches] at hcm
    | dir => simp [VNode.compare, kindOf, hd]
    | fifo => simp [VNode.compare, kindOf, hd]
    | symlink t =>
      rw [hd] at hcm
      cases he : e.data with
      | symlink t2 =>
        rw [he] at hcm
        simp only [contentMatches] at hcm
        subst hcm
        have hrl : os_readlink noFail w1 so.dest_path = .ok t := by
          simp [os_readlink, noFail, hfd, he]
        simp [VNode.compare, kindOf, hd, hex, hrl]
      | file c2 => rw [he] at hcm; simp [contentMatches] at hcm
      | dir => rw [he] at hcm; simp [contentMatches] at hcm
      | fifo => rw [he] at hcm; simp [contentMatches] at hcm
      | chardev a2 b2 => rw [he] at hcm; simp [contentMatches] at hcm
      | blkdev a2 b2 => rw [he] at hcm; simp [contentMatches] at hcm
    | chardev a b =>
      rw [hd] at hcm
      cases he : e.data with
      | chardev a2 b2 =>
        rw [he] at hcm
        simp only [contentMatches] at hcm
        obtain ⟨ha, hb⟩ := hcm
        subst ha; subst hb
        have hls : os_lstat noFail w1 so.dest_path = .ok (rawStatOf e) := by
          simp [os_lstat, noFail, hfd]
        simp [VNode.compare, kindOf, hd, hex, hls, rawStatOf, he,
          EntryData.rdevMajor, EntryData.rdevMinor]
      | file c2 => rw [he] at hcm; simp [contentMatches] at hcm
      | dir => rw [he] at hcm; simp [contentMatches] at hcm
      | symlink t2 => rw [he] at hcm; simp [contentMatches] at hcm
      | fifo => rw [he] at hcm; simp [contentMatches] at hcm
      | blkdev a2 b2 => rw [he] at hcm; simp [contentMatches] at hcm
    | blkdev a b =>
      rw [hd] at hcm
      cases he : e.data with
      | blkdev a2 b2 =>
        rw [he] at hcm
        simp only [contentMatches] at hcm
        obtain ⟨ha, hb⟩ := hcm
        subst ha; subst hb
        have hls : os_lstat noFail w1 so.dest_path = .ok (rawStatOf e) := by
          simp [os_lstat, noFail, hfd]
        simp [VNode.compare, kindOf, hd, hex, hls, rawStatOf, he,
          EntryData.rdevMajor, EntryData.rdevMinor]
      | file c2 => rw [he] at hcm; simp [contentMatches] at hcm
      | dir => rw [he] at hcm; simp [contentMatches] at hcm
      | symlink t2 => rw [he] at hcm; simp [contentMatches] at hcm
      | fifo => rw [he] at hcm; simp [contentMatches] at hcm
      | chardev a2 b2 => rw [he] at hcm; simp [contentMatches] at hcm
  have hu : so.src_stat.uid = so.dest_stat.uid := by rw [hst, hstS, hdst, hdstS, huid]
  have hg : so.src_stat.gid = so.dest_stat.gid := by rw [hst, hstS, hdst, hdstS, hgid]
  have hm : so.src_stat.mode = so.dest_stat.mode := by
    rw [hst, hstS, hdst, hdstS, hty, hmode]
  unfold SyncObject.check
  rw [if_neg (by simp [hex]), if_neg (by simp [hft, hdft, hty]), hvo]
  dsimp only
  rw [if_neg (by simp [hcmp])]
  simp [hu, hg, hm]

theorem compare_true_content (H : List Nat → List Nat) (hH : Function.Injective H)
    (so : SyncObject) (w : World) (se e0 : DEntry)
    (hse : w.find so.src_path = some se)
    (hst : so.src_stat = statOf w so.src_path)
    (hdst : so.dest_stat = statOf w so.dest_path)
    (he0 : w.find so.dest_path = some e0)
    (hty : se.data.ftype = e0.data.ftype)
    (hcmp : (VNode.compare H noFail
        ⟨so.dest_path, so.src_stat, so.dest_stat.fsExists, kindOf se so.src_path⟩
        so.src_path so.dest_stat w).1 ≠ false) :
    contentMatches se.data e0.data := by
  have hex : so.dest_stat.fsExists = true := by rw [hdst, statOf_some w _ e0 he0]
  cases hd : se.data with
  | file c =>
    obtain ⟨c2, he⟩ : ∃ c2, e0.data = .file c2 := by
      rw [hd] at hty
      cases he : e0.data <;> rw [he] at hty <;> simp [EntryData.ftype] at hty
      exact ⟨_, rfl⟩
    rw [he]
    simp only [contentMatches]
    simp only [VNode.compare, kindOf, hd] at hcmp
    by_cases hsz : so.src_stat.size = so.dest_stat.size
    · rw [if_neg (by simp [hsz])] at hcmp
      have h1 : openFile noFail w so.src_path = .ok c := by
        simp [openFile, noFail, hse, hd]
      have h2 : openFile noFail w so.dest_path = .ok c2 := by
        simp [openFile, noFail, he0, he]
      unfold compare_checksums at hcmp
      rw [h1, h2] at hcmp
      have hiff := checksumLoop_eq_iff H hH so.src_path so.dest_path
        (c.length + c2.length + 1) c c2 [] [] 0 (by omega) (Or.inl rfl)
      simp only [List.nil_append] at hiff
      refine hiff.mp ?_
      simpa using hcmp
    · rw [if_pos (by simpa using hsz)] at hcmp
      simp at hcmp
  | dir =>
    cases he : e0.data <;> rw [hd, he] at hty <;> simp [EntryData.ftype] at hty
    simp [contentMatches]
  | fifo =>
    cases he : e0.data <;> rw [hd, he] at hty <;> simp [EntryData.ftype] at hty
    simp [contentMatches]
  | symlink t =>
    obtain ⟨t2, he⟩ : ∃ t2, e0.data = .symlink t2 := by
      rw [hd] at hty
      cases he : e0.data <;> rw [he] at hty <;> simp [EntryData.ftype] at hty
      exact ⟨_, rfl⟩
    rw [he]
    simp only [contentMatches]
    simp only [VNode.compare, kindOf, hd] at hcmp
    rw [if_neg (by simp [hex])] at hcmp
    have hrl : os_readlink noFail w so.dest_path = .ok t2 := by
      simp [os_readlink, noFail, he0, he]
    rw [hrl] at hcmp
    simpa using hcmp
  | chardev a b =>
    obtain ⟨a2, b2, he⟩ : ∃ a2 b2, e0.data = .chardev a2 b2 := by
      rw [hd] at hty
      cases he : e0.data <;> rw [he] at hty <;> simp [EntryData.ftype] at hty
      exact ⟨_, _, rfl⟩
    rw [he]
    simp only [contentMatches]
    simp only [VNode.compare, kindOf, hd] at hcmp
    rw [if_neg (by simp [hex])] at hcmp
    have hls : os_lstat noFail w so.dest_path = .ok (rawStatOf e0) := by
      simp [os_lstat, noFail, he0]
    rw [hls] at hcmp
    simp only [rawStatOf, hd, he, EntryData.rdevMajor, EntryData.rdevMinor] at hcmp
    simpa using hcmp
  | blkdev a b =>
    obtain ⟨a2, b2, he⟩ : ∃ a2 b2, e0.data = .blkdev a2 b2 := by
      rw [hd] at hty
      cases he : e0.data <;> rw [he] at hty <;> simp [EntryData.ftype] at hty
      exact ⟨_, _, rfl⟩
    rw [he]
    simp only [contentMatches]
    simp only [VNode.compare, kindOf, hd] at hcmp
    rw [if_neg (by simp [hex])] at hcmp
    have hls : os_lstat noFail w so.dest_path = .ok (rawStatOf e0) := by
      simp [os_lstat, noFail, he0]
    rw [hls] at hcmp
    simp only [rawStatOf, hd, he, EntryData.rdevMajor, EntryData.rdevMinor] at hcmp
    simpa using hcmp

/-- C9: owner/permission convergence is idempotent: if a non-dry-run
check() (whose filesystem effects all succeed, expressed by the
no-failure oracle and the success-enabling side conditions on the
initial state) returns at all, a second check() over the resulting
state — with a fresh destination snapshot — returns (false, false) and
performs no further mutation. -/
theorem check_idempotent (H : List Nat → List Nat) (hH : Function.Injective H)
    (cfg : Config) (so : SyncObject) (w : World) (u m : Bool) (w1 : World)
    (hdry : cfg.dryRun = false) (hlo : cfg.hasLchown = true) (hlm : cfg.hasLchmod = true)
    (hst : so.src_stat = statOf w so.src_path)
    (hdst : so.dest_stat = statOf w so.dest_path)
    (hne : so.dest_path ≠ [])
    (hp1 : pathLE so.dest_path so.src_path = false)
    (hp2 : pathLE (savedPath so.dest_path) so.src_path = false)
    (hsaved : w.find (savedPath so.dest_path) = none)
    (hdel : cfg.backupCopies = true ∨ (∀ e se, w.find so.dest_path = some e →
        w.find so.src_path = some se → e.data.isDir = true → se.data.isDir = true))
    (hchk : SyncObject.check H cfg noFail so w = .ok u m w1) :
    SyncObject.check H cfg noFail { so with dest_stat := statOf w1 so.dest_path } w1 =
      .ok false false w1 := by
  obtain ⟨se, hse⟩ : ∃ se, w.find so.src_path = some se := by
    cases hfe : w.find so.src_path with
    | some se => exact ⟨se, rfl⟩
    | none =>
      have hun : so.src_stat.ftype = .unknown := by
        rw [hst]; simp [statOf, hfe]
      rw [check_none_exn H cfg noFail so w (vnode_obj_unknown noFail so w hun)] at hchk
      cases hchk
  have hft : so.src_stat.ftype = se.data.ftype := by rw [hst, statOf_some w _ se hse]
  have hvo := vnode_obj_of_statOf noFail so w se rfl rfl hse hft
  have hsp_ne : so.src_path ≠ so.dest_path := by
    intro hc
    rw [hc] at hp1
    exact absurd (pathLE_refl so.dest_path) (by simp [hp1])
  have huidse : so.src_stat.uid = se.meta.uid := by rw [hst, statOf_some w _ se hse]
  have hgidse : so.src_stat.gid = se.meta.gid := by rw [hst, statOf_some w _ se hse]
  have hmodese : so.src_stat.mode = typeBits se.data.ftype + (se.meta.mode &&& 0o7777) := by
    rw [hst, statOf_some w _ se hse]
  have hmode_chain : (so.src_stat.mode &&& 0o7777) &&& 0o7777 = se.meta.mode &&& 0o7777 := by
    rw [hmodese, typeBits_add_land, land_7777_idem]
  have hdel2 : cfg.backupCopies = true ∨ se.data.isDir = true ∨
      (∀ e, w.find so.dest_path = some e → e.data.isDir = false) := by
    rcases hdel with h | h
    · exact Or.inl h
    · by_cases hsd : se.data.isDir = true
      · exact Or.inr (Or.inl hsd)
      · refine Or.inr (Or.inr (fun e he => ?_))
        by_cases hed : e.data.isDir = true
        · exact absurd (h e se he hse hed) hsd
        · simpa using hed
  have hconv := fix_converged cfg so w se hdry hlo hlm hse hdst hne hp1 hp2 hsaved hdel2
  have hfinish : ∀ (wF : World) (e : DEntry),
      wF.find so.dest_path = some e →
      wF.find so.src_path = some se →
      contentMatches se.data e.data →
      e.meta.uid = se.meta.uid → e.meta.gid = se.meta.gid →
      e.meta.mode &&& 0o7777 = se.meta.mode &&& 0o7777 →
      SyncObject.check H cfg noFail { so with dest_stat := statOf wF so.dest_path } wF =
        .ok false false wF := by
    intro wF e hfd hfs hcm2 hu2 hg2 hm2
    refine check_converged_state H cfg _ wF se e hfs ?_ rfl hfd hcm2 hu2 hg2 hm2
    show so.src_stat = statOf wF so.src_path
    rw [hst, statOf_some w _ se hse, statOf_some wF _ se hfs]
  unfold SyncObject.check at hchk
  by_cases h1 : so.dest_stat.fsExists = false
  · rw [if_pos h1, hvo] at hchk
    dsimp only at hchk
    cases hchk
    exact hfinish _ _ hconv.1 hconv.2 (contentMatches_refl se.data) huidse hgidse hmode_chain
  · rw [if_neg h1] at hchk
    by_cases h2 : so.src_stat.ftype ≠ so.dest_stat.ftype
    · rw [if_pos h2, hvo] at hchk
      dsimp only at hchk
      cases hchk
      exact hfinish _ _ hconv.1 hconv.2 (contentMatches_refl se.data) huidse hgidse hmode_chain
    · rw [if_neg h2, hvo] at hchk
      dsimp only at hchk
      by_cases h3 : (VNode.compare H noFail
          ⟨so.dest_path, so.src_stat, so.dest_stat.fsExists, kindOf se so.src_path⟩
          so.src_path so.dest_stat w).1 = false
      · rw [if_pos h3] at hchk
        cases hchk
        exact hfinish _ _ hconv.1 hconv.2 (contentMatches_refl se.data) huidse hgidse
          hmode_chain
      · rw [if_neg h3] at hchk
        have hexT : (w.find so.dest_path).isSome = true := by
          rw [← statOf_fsExists, ← hdst]
          simpa using h1
        obtain ⟨e0, he0⟩ := Option.isSome_iff_exists.mp hexT
        have hfteq : so.src_stat.ftype = so.dest_stat.ftype := not_ne_iff.mp h2
        have hduide : so.dest_stat.uid = e0.meta.uid := by rw [hdst, statOf_some w _ e0 he0]
        have hdgide : so.dest_stat.gid = e0.meta.gid := by rw [hdst, statOf_some w _ e0 he0]
        have hdmode : so.dest_stat.mode =
            typeBits e0.data.ftype + (e0.meta.mode &&& 0o7777) := by
          rw [hdst, statOf_some w _ e0 he0]
        have htyse : se.data.ftype = e0.data.ftype := by
          rw [← hft, hfteq, hdst, statOf_some w _ e0 he0]
        have hcm0 : contentMatches se.data e0.data :=
          compare_true_content H hH so w se e0 hse hst hdst he0 htyse h3
        by_cases hod : (so.src_stat.uid ≠ so.dest_stat.uid ∨
            so.src_stat.gid ≠ so.dest_stat.gid)
        · by_cases hmd : so.src_stat.mode ≠ so.dest_stat.mode
          · simp only [if_pos hod, if_pos hmd] at hchk
            rw [set_owner_state cfg _ w e0.data e0.meta hdry hlo he0] at hchk
            rw [set_permissions_state cfg _ _ e0.data
              ⟨so.src_stat.uid, so.src_stat.gid, e0.meta.mode⟩ hdry hlm
              (World.find_set_self w _ _)] at hchk
            cases hchk
            refine hfinish _ ⟨e0.data, ⟨so.src_stat.uid, so.src_stat.gid,
                so.src_stat.mode &&& 0o7777⟩⟩ (World.find_set_self _ _ _) ?_ hcm0
              huidse hgidse hmode_chain
            rw [World.find_set_ne _ _ hsp_ne, World.find_set_ne w _ hsp_ne]
            exact hse
          · simp only [if_pos hod, if_neg hmd] at hchk
            rw [set_owner_state cfg _ w e0.data e0.meta hdry hlo he0] at hchk
            cases hchk
            have hmode2 : e0.meta.mode &&& 0o7777 = se.meta.mode &&& 0o7777 := by
              have heqm := not_ne_iff.mp hmd
              rw [hmodese, hdmode, ← htyse] at heqm
              have := Nat.add_left_cancel heqm
              rw [← this]
            refine hfinish _ ⟨e0.data, ⟨so.src_stat.uid, so.src_stat.gid, e0.meta.mode⟩⟩
              (World.find_set_self _ _ _) ?_ hcm0 huidse hgidse hmode2
            rw [World.find_set_ne w _ hsp_ne]
            exact hse
        · have hodq := not_or.mp hod
          have huid2 : e0.meta.uid = se.meta.uid := by
            rw [← hduide, ← not_ne_iff.mp hodq.1, huidse]
          have hgid2 : e0.meta.gid = se.meta.gid := by
            rw [← hdgide, ← not_ne_iff.mp hodq.2, hgidse]
          by_cases hmd : so.src_stat.mode ≠ so.dest_stat.mode
          · simp only [if_neg hod, if_pos hmd] at hchk
            rw [set_permissions_state cfg _ w e0.data e0.meta hdry hlm he0] at hchk
            cases hchk
            refine hfinish _ ⟨e0.data, ⟨e0.meta.uid, e0.meta.gid,
                so.src_stat.mode &&& 0o7777⟩⟩ (World.find_set_self _ _ _) ?_ hcm0
              huid2 hgid2 hmode_chain
            rw [World.find_set_ne w _ hsp_ne]
            exact hse
          · simp only [if_neg hod, if_neg hmd] at hchk
            cases hchk
            have hmode2 : e0.meta.mode &&& 0o7777 = se.meta.mode &&& 0o7777 := by
              have heqm := not_ne_iff.mp hmd
              rw [hmodese, hdmode, ← htyse] at heqm
              have := Nat.add_left_cancel heqm
              rw [← this]
            exact hfinish _ e0 he0 hse hcm0 huid2 hgid2 hmode2

/-- C9 witness: a concrete non-dry-run run that creates the missing
destination file; the second check over the resulting state reports
(false, false) and leaves the state untouched. -/
theorem check_idempotent_witness :
    SyncObject.check id wCfgBk noFail
      { wSOm with dest_stat := statOf wFix1 ["etc", "motd"] } wFix1 =
      .ok false false wFix1 :=
  check_idempotent id (fun _ _ h => h) wCfgBk wSOm wWsrc true false wFix1
    rfl rfl rfl (by decide) (by decide) (by decide) (by decide) (by decide) rfl
    (Or.inl rfl) (by decide)

end Synctool
